import Mathlib

/-!
Verification development for a triangle-splatting model loader.

The loader has two subsystems: a binary container parser
(`parseContainer`, `detectFormat`, `float16ToFloat32`) and a semantic
resolver (`resolveSemantics` with the numeric policies `decodeColorDC`,
`applyOpacityPolicy`, `applySigmaPolicy`, `sanitizeFiniteInPlace`,
`toFloat32Array`).

Modelling conventions:
* Host floating-point numbers are modelled as exact values: an `F32` is
  either a finite exact rational or one of the non-finite specials
  (`nan`, `inf`, `ninf`).  Arithmetic on `F32` follows the host's
  special-value rules (NaN propagation, comparisons with NaN false,
  `min`/`max` returning NaN when an argument is NaN, division by zero
  giving signed infinity) but keeps finite results exact; rounding and
  the sign of zero are not modelled.  `Math.exp` is a host primitive and
  is passed in as an abstract function argument `expF`.
* Byte buffers are lists of byte values (`Nat` below 256); multi-byte
  reads are little-endian, as in the source's `DataView` accesses.
* `JSON.parse` is a host primitive; the container parser takes the JSON
  decoding step as an abstract argument `decodeHeader` producing an
  optional structured header.
* The source mutates buffers in place in exactly one spot (position
  sanitization).  The resolver is therefore modelled with explicit state
  passing: it returns its result together with the post-call model.
-/

namespace TSL

/-- Model of a host floating-point value: a finite exact rational, or one
of the non-finite specials NaN, +Infinity, -Infinity. -/
inductive F32 where
  | val (q : ℚ)
  | nan
  | inf
  | ninf
deriving DecidableEq, Repr

namespace F32

/-- Number.isFinite: true exactly on finite values. -/
def isFinite : F32 → Bool
  | val _ => true
  | _ => false

/-- Host `<` comparison: false whenever either operand is NaN. -/
def lt : F32 → F32 → Bool
  | val a, val b => decide (a < b)
  | val _, inf => true
  | ninf, val _ => true
  | ninf, inf => true
  | _, _ => false

/-- Host `<=` comparison: false whenever either operand is NaN. -/
def le : F32 → F32 → Bool
  | nan, _ => false
  | _, nan => false
  | ninf, _ => true
  | _, inf => true
  | val a, val b => decide (a ≤ b)
  | inf, _ => false
  | val _, ninf => false

/-- Host unary negation. -/
def neg : F32 → F32
  | val q => val (-q)
  | nan => nan
  | inf => ninf
  | ninf => inf

/-- Host addition with IEEE special-value rules (exact on finite values). -/
def add : F32 → F32 → F32
  | nan, _ => nan
  | _, nan => nan
  | inf, ninf => nan
  | ninf, inf => nan
  | inf, _ => inf
  | _, inf => inf
  | ninf, _ => ninf
  | _, ninf => ninf
  | val a, val b => val (a + b)

/-- Host multiplication with IEEE special-value rules (exact on finite
values; zero times an infinity is NaN). -/
def mul : F32 → F32 → F32
  | nan, _ => nan
  | _, nan => nan
  | inf, inf => inf
  | inf, ninf => ninf
  | ninf, inf => ninf
  | ninf, ninf => inf
  | inf, val b => if b = 0 then nan else if 0 < b then inf else ninf
  | val a, inf => if a = 0 then nan else if 0 < a then inf else ninf
  | ninf, val b => if b = 0 then nan else if 0 < b then ninf else inf
  | val a, ninf => if a = 0 then nan else if 0 < a then ninf else inf
  | val a, val b => val (a * b)

/-- Host division with IEEE special-value rules: finite by (+)zero gives a
signed infinity, infinity by infinity gives NaN, finite by infinity gives
zero (the sign of zero is not modelled). -/
def div : F32 → F32 → F32
  | nan, _ => nan
  | _, nan => nan
  | inf, inf => nan
  | inf, ninf => nan
  | ninf, inf => nan
  | ninf, ninf => nan
  | inf, val b => if b < 0 then ninf else inf
  | ninf, val b => if b < 0 then inf else ninf
  | val _, inf => val 0
  | val _, ninf => val 0
  | val a, val b =>
    if b = 0 then (if a = 0 then nan else if 0 < a then inf else ninf)
    else val (a / b)

/-- Math.min: NaN if either argument is NaN. -/
def fmin : F32 → F32 → F32
  | nan, _ => nan
  | _, nan => nan
  | ninf, _ => ninf
  | _, ninf => ninf
  | inf, x => x
  | x, inf => x
  | val a, val b => val (min a b)

/-- Math.max: NaN if either argument is NaN. -/
def fmax : F32 → F32 → F32
  | nan, _ => nan
  | _, nan => nan
  | inf, _ => inf
  | _, inf => inf
  | ninf, x => x
  | x, ninf => x
  | val a, val b => val (max a b)

end F32

/-! Position sanitization (`sanitizeFiniteInPlace`, tensorUtils.ts 46-69).

The source walks the buffer left to right; for a non-finite entry at
index `i` it scans `j = 1..31`, checking `values[i-j]` then `values[i+j]`
for the first finite value (against the partially-sanitized buffer, since
earlier entries were already replaced in place), substituting 0 when the
window holds none.  The model walks a zipper: `back` holds the already
processed entries nearest first, `fwd` the untouched tail. -/

/-- Whether index `k` of `l` exists and holds a finite value. -/
def finAt (l : List F32) (k : Nat) : Bool :=
  match l[k]? with
  | some v => v.isFinite
  | none => false

/-- The value at index `k` of `l` (0 when out of range; only used after
`finAt` has established the index exists). -/
def getAt (l : List F32) (k : Nat) : F32 :=
  l[k]?.getD (F32.val 0)

/-- One step of the source's inner search loop at distance `j = k + 1`:
the backward neighbour first, then the forward one. -/
def searchStep (back fwd : List F32) (k : Nat) : Option F32 :=
  if finAt back k then some (getAt back k)
  else if finAt fwd k then some (getAt fwd k)
  else none

/-- Replacement search of the source's inner loop: for `j` from 1 up to
31 (translated as the first hit of `searchStep` over `k = j − 1`), try
the backward neighbour at distance `j`, then the forward one, taking the
first finite value, else 0. -/
def searchOut (back fwd : List F32) : F32 :=
  ((List.range 31).findSome? (searchStep back fwd)).getD (F32.val 0)

/-- Main sanitization walk: `back` holds processed entries (nearest
first), `rest` the remaining input, `r` the running replacement count. -/
def sanGo (back rest : List F32) (r : Nat) : List F32 × Nat :=
  match rest with
  | [] => (back.reverse, r)
  | v :: tl =>
    if v.isFinite then sanGo (v :: back) tl r
    else sanGo (searchOut back tl :: back) tl (r + 1)

/-- tensorUtils.ts `sanitizeFiniteInPlace`: replaces each non-finite entry
with the nearest finite value within 31 steps (backward preferred at equal
distance), 0 otherwise; returns the new buffer and the replacement count. -/
def sanitizeFiniteInPlace (vs : List F32) : List F32 × Nat :=
  sanGo [] vs 0

/-! Specification-side restatement of the sanitizer, written from the
spec's words: search outward checking offsets −1, +1, −2, +2, …, up to 31
steps, taking the first finite value, substituting 0 when none is found. -/

/-- The outward offset sequence −1, +1, −2, +2, …, −31, +31. -/
def outwardOffsets : List Int :=
  (List.range 31).flatMap (fun k => [-(k + 1 : Int), (k + 1 : Int)])

/-- The entry at a signed offset relative to the zipper position:
negative offsets index the backward list, positive ones the forward. -/
def offsetVal (back fwd : List F32) (o : Int) : Option F32 :=
  if o < 0 then back[(-o).toNat - 1]?
  else fwd[o.toNat - 1]?

/-- First finite value at the given offsets, else 0. -/
def firstFiniteAt (back fwd : List F32) : List Int → F32
  | [] => F32.val 0
  | o :: rest =>
    match offsetVal back fwd o with
    | some v => if v.isFinite then v else firstFiniteAt back fwd rest
    | none => firstFiniteAt back fwd rest

/-- Spec-side sanitization walk using the offset-sequence search. -/
def sanSpecGo (back rest : List F32) (r : Nat) : List F32 × Nat :=
  match rest with
  | [] => (back.reverse, r)
  | v :: tl =>
    if v.isFinite then sanSpecGo (v :: back) tl r
    else sanSpecGo (firstFiniteAt back tl outwardOffsets :: back) tl (r + 1)

/-- Sanitization as the spec words it. -/
def sanitizeSpec (vs : List F32) : List F32 × Nat :=
  sanSpecGo [] vs 0

/-- Count of non-finite entries of a buffer. -/
def countNonFinite (vs : List F32) : Nat :=
  (vs.filter (fun v => !v.isFinite)).length

/-! Tensor data model (types.ts) and the raw-to-float conversion
(tensorUtils.ts `toFloat32Array`). -/

/-- Tensor element dtypes of the container (types.ts `TensorDType`,
without the `unknown` placeholder, which the parser rejects). -/
inductive DType where
  | f16
  | f32
  | u8
  | i32
  | i64
deriving DecidableEq, Repr

/-- A decoded tensor buffer.  `f32Arr` is a host `Float32Array` — the one
representation `toFloat32Array` hands back without copying, so in-place
sanitization of the converted buffer aliases it; `otherArr` stands for
every other typed-array representation, which `toFloat32Array` copies
into a fresh array (numeric conversion modelled value-preserving). -/
inductive TensorData where
  | f32Arr (vs : List F32)
  | otherArr (vs : List F32)
deriving DecidableEq, Repr

/-- tensorUtils.ts `toFloat32Array`: the identity on a `Float32Array`
(returning the very same buffer), an element-converting copy otherwise. -/
def toFloat32Array : TensorData → List F32
  | .f32Arr vs => vs
  | .otherArr vs => vs

/-- A parsed tensor record (types.ts `TensorRecord`): decoded data, shape
as read from the JSON header, dtype. -/
structure TensorRecord where
  data : TensorData
  shape : List ℚ
  dtype : DType
deriving DecidableEq, Repr

/-! Numeric interpretation policies (tensorUtils.ts 71-158).  Each policy
takes the abstract host exponential `expF` where it needs `Math.exp`. -/

/-- tensorUtils.ts `ColorMode`. -/
inductive ColorMode where
  | auto
  | linear
  | sh
deriving DecidableEq, Repr

/-- tensorUtils.ts `OpacityMode`. -/
inductive OpacityMode where
  | auto
  | linear
  | logits
deriving DecidableEq, Repr

/-- tensorUtils.ts `SigmaMode`. -/
inductive SigmaMode where
  | auto
  | linear
  | log
deriving DecidableEq, Repr

/-- tensorUtils.ts `SH_C0 = 0.28209479177387814`, the zeroth-order
spherical-harmonics basis constant, modelled as the exact value of the
source's decimal literal. -/
def SH_C0 : ℚ := 0.28209479177387814

/-- tensorUtils.ts `sigmoid`: 1 / (1 + exp(−x)). -/
def sigmoid (expF : F32 → F32) (x : F32) : F32 :=
  F32.div (F32.val 1) (F32.add (F32.val 1) (expF (F32.neg x)))

/-- Clamp to [0, 1]: `Math.max(0, Math.min(1, v))`. -/
def clamp01 (v : F32) : F32 :=
  F32.fmax (F32.val 0) (F32.fmin (F32.val 1) v)

/-- A component lying outside [0, 1]: `v < 0 || v > 1` with host
comparisons (so NaN never counts as outside). -/
def outsideUnit (v : F32) : Bool :=
  F32.lt v (F32.val 0) || F32.lt (F32.val 1) v

/-- The auto-classification scan shared by color and opacity: does some
component lie outside [0, 1]? -/
def anyOutsideUnit (vs : List F32) : Bool :=
  vs.any outsideUnit

/-- tensorUtils.ts `decodeColorDC`: uint8 components are divided by 255
(interpretation "u8"); otherwise the mode (or, for auto, the
outside-[0,1] scan) selects SH — component transform v*SH_C0 + 0.5 — or
linear pass-through; every component is finally clamped to [0,1]. -/
def decodeColorDC (colorValues : List F32) (dtype : DType) (mode : ColorMode) :
    List F32 × String :=
  match dtype with
  | .u8 =>
    ((colorValues.map (fun v => clamp01 (F32.div v (F32.val 255)))), "u8")
  | _ =>
    let treatAsSH :=
      match mode with
      | .sh => true
      | .linear => false
      | .auto => anyOutsideUnit colorValues
    let out := colorValues.map (fun v =>
      clamp01 (if treatAsSH then F32.add (F32.mul v (F32.val SH_C0)) (F32.val (1/2)) else v))
    (out, if treatAsSH then "sh" else "linear")

/-- tensorUtils.ts `applyOpacityPolicy`: mode logits forces the logistic
map, linear forces pass-through, auto scans for a component outside
[0,1]; outputs are clamped to [0,1]. -/
def applyOpacityPolicy (expF : F32 → F32) (opacityValues : List F32) (mode : OpacityMode) :
    List F32 × String :=
  let treatAsLogits :=
    match mode with
    | .logits => true
    | .linear => false
    | .auto => anyOutsideUnit opacityValues
  let out := opacityValues.map (fun v =>
    clamp01 (if treatAsLogits then sigmoid expF v else v))
  (out, if treatAsLogits then "logits" else "linear")

/-- Clamp to [1e-4, 10]: `Math.max(1e-4, Math.min(10, v))`. -/
def clampSigma (v : F32) : F32 :=
  F32.fmax (F32.val (1/10000)) (F32.fmin (F32.val 10) v)

/-- A component that is ≤ 0 under the host comparison (NaN never is). -/
def nonPos (v : F32) : Bool :=
  F32.le v (F32.val 0)

/-- tensorUtils.ts `applySigmaPolicy`: mode log forces the log-domain
transform 0.01 + exp(x), linear forces pass-through, auto scans for a
component ≤ 0; outputs are clamped to [1e-4, 10]. -/
def applySigmaPolicy (expF : F32 → F32) (sigmaValues : List F32) (mode : SigmaMode) :
    List F32 × String :=
  let treatAsLogSigma :=
    match mode with
    | .log => true
    | .linear => false
    | .auto => sigmaValues.any nonPos
  let out := sigmaValues.map (fun v =>
    clampSigma (if treatAsLogSigma then F32.add (F32.val (1/100)) (expF v) else v))
  (out, if treatAsLogSigma then "log" else "linear")

/-! Semantic resolver (resolveSemantics and its helpers). -/

/-- The parsed model as the resolver consumes it: the name-to-record
tensor mapping plus the header fields the resolver reads.  Keys are
unique (the parser builds the mapping with overwrite-on-duplicate), so
first-match lookup models JS property access. -/
structure ParsedModel where
  tensors : List (String × TensorRecord)
  paramsActiveShDegree : Option ℚ
  activeShDegree : Option ℚ
deriving DecidableEq, Repr

/-- Resolver options (`ResolveOptions`), every mode defaulting to auto. -/
structure ResolveOptions where
  opacityMode : OpacityMode := .auto
  colorMode : ColorMode := .auto
  sigmaMode : SigmaMode := .auto
deriving DecidableEq, Repr

/-- Resolver failures, named per the spec's error taxonomy.  The source
throws plain `Error`s; `unsupportedShape` covers both position-shape
throw sites (too few dimensions — which reports the whole shape — and
wrong inner dimensions — which reports the first three), each carrying
the dimensions its message reports.  `allocRangeError` models the host
`RangeError` a typed-array allocation raises when the primitive count
from the shape is not a non-negative integer. -/
inductive ResolveErr where
  | missingPositionTensor (aliases : List String)
  | unsupportedShape (dims : List ℚ)
  | allocRangeError
deriving DecidableEq, Repr

/-- KEY_ALIASES.positions. -/
def positionAliases : List String := ["triangles_points", "triangle_points", "positions"]

/-- KEY_ALIASES.colorDC. -/
def colorDCAliases : List String := ["features_dc", "color_dc", "colors_dc"]

/-- KEY_ALIASES.colorRest. -/
def colorRestAliases : List String := ["features_rest", "color_rest", "colors_rest"]

/-- KEY_ALIASES.opacity. -/
def opacityAliases : List String := ["opacity_alpha", "opacity", "alpha"]

/-- KEY_ALIASES.sigma. -/
def sigmaAliases : List String := ["sigma"]

/-- JS object property access on the tensor mapping. -/
def lookupTensor (ts : List (String × TensorRecord)) (k : String) : Option TensorRecord :=
  (ts.find? (fun p => p.1 == k)).map (fun p => p.2)

/-- `findTensor`: the record of the first alias present in the mapping. -/
def findTensor (ts : List (String × TensorRecord)) : List String → Option TensorRecord
  | [] => none
  | k :: tl =>
    match lookupTensor ts k with
    | some r => some r
    | none => findTensor ts tl

/-- `findTensorName`: the first alias present in the mapping. -/
def findTensorName (ts : List (String × TensorRecord)) (aliases : List String) :
    Option String :=
  aliases.find? (fun k => (lookupTensor ts k).isSome)

/-- Replace the data buffer of the record stored under `key` (the effect
of mutating, in place, a buffer owned by that record). -/
def setTensorData (ts : List (String × TensorRecord)) (key : String) (d : TensorData) :
    List (String × TensorRecord) :=
  ts.map (fun p => if p.1 = key then (p.1, { p.2 with data := d }) else p)

/-- Per-primitive broadcast: value `g tri` written to each of the 3
vertices of primitive `tri`, primitives in order. -/
def broadcast3 (g : Nat → F32) (n : Nat) : List F32 :=
  (List.range n).flatMap (fun t => [g t, g t, g t])

/-- The resolver's output bundle (types.ts `SemanticData`), with the
stats record inlined. -/
structure SemanticData where
  positionsName : Option String
  positionsData : List F32
  positionsShape : List ℚ
  colorDC : Option (Option String × List F32 × String)
  colorRest : Option TensorRecord
  opacity : Option (List F32 × String)
  sigma : Option (List F32 × String)
  shDegree : ℚ
  statsTriangleCount : ℚ
  statsTotalVertices : ℚ
  statsReplaced : Nat
  statsColorInterp : String
  statsOpacityInterp : String
  statsSigmaInterp : String
deriving DecidableEq, Repr

/-- The parsed model as it stands after a resolve call: when the position
tensor's data is already a `Float32Array`, `toFloat32Array` returned that
very buffer and sanitization mutated it in place, so the record under the
matched alias now holds the sanitized values; any other representation
was copied first, leaving the model untouched. -/
def postModelOf (m : ParsedModel) (posT : TensorRecord) : ParsedModel :=
  match posT.data, findTensorName m.tensors positionAliases with
  | .f32Arr _, some key =>
    { m with
      tensors := setTensorData m.tensors key
        (.f32Arr (sanitizeFiniteInPlace (toFloat32Array posT.data)).1) }
  | _, _ => m

/-- The semantic-data bundle the resolver emits on its success path,
given the resolved position tensor and its sanitization result. -/
def resolveSuccess (expF : F32 → F32) (m : ParsedModel) (opts : ResolveOptions)
    (posT : TensorRecord) (san : List F32 × Nat) : SemanticData :=
  let d0 := posT.shape.getD 0 0
  let N := d0.num.toNat
  let colorDC :=
    match findTensor m.tensors colorDCAliases with
    | none => none
    | some ct =>
      let decoded := decodeColorDC (toFloat32Array ct.data) ct.dtype opts.colorMode
      let colors := (List.range N).flatMap (fun tri =>
        let r := decoded.1.getD (tri * 3) (F32.val (1/2))
        let g := decoded.1.getD (tri * 3 + 1) (F32.val (1/2))
        let b := decoded.1.getD (tri * 3 + 2) (F32.val (1/2))
        [r, g, b, r, g, b, r, g, b])
      some (findTensorName m.tensors colorDCAliases, colors, decoded.2)
  let opacity :=
    match findTensor m.tensors opacityAliases with
    | none => none
    | some ot =>
      let applied := applyOpacityPolicy expF (toFloat32Array ot.data) opts.opacityMode
      some (broadcast3 (fun tri => applied.1.getD tri (F32.val 1)) N, applied.2)
  let sigma :=
    match findTensor m.tensors sigmaAliases with
    | none => none
    | some st =>
      let applied := applySigmaPolicy expF (toFloat32Array st.data) opts.sigmaMode
      some (broadcast3 (fun tri => applied.1.getD tri (F32.val (1/10))) N, applied.2)
  { positionsName := findTensorName m.tensors positionAliases
    positionsData := san.1
    positionsShape := posT.shape
    colorDC := colorDC
    colorRest := findTensor m.tensors colorRestAliases
    opacity := opacity
    sigma := sigma
    shDegree := m.paramsActiveShDegree.getD (m.activeShDegree.getD 0)
    statsTriangleCount := d0
    statsTotalVertices := d0 * 3
    statsReplaced := san.2
    statsColorInterp := match colorDC with | some c => c.2.2 | none => "none"
    statsOpacityInterp := match opacity with | some o => o.2 | none => "none"
    statsSigmaInterp := match sigma with | some s => s.2 | none => "none" }

/-- semanticResolver `resolveSemantics`, with explicit state passing: the
second component is the parsed model as it stands after the call.  The
in-place sanitization happens before shape validation, so the mutation
captured by `postModelOf` persists on the error paths too.  The
`allocRangeError` branch models the host `RangeError` raised when the
primitive count taken from the shape is not a non-negative integer, so
that typed-array allocation lengths are well defined past it. -/
def resolveSemantics (expF : F32 → F32) (m : ParsedModel) (opts : ResolveOptions) :
    Except ResolveErr SemanticData × ParsedModel :=
  match findTensor m.tensors positionAliases with
  | none => (.error (.missingPositionTensor positionAliases), m)
  | some posT =>
    let positionData := toFloat32Array posT.data
    let san := sanitizeFiniteInPlace positionData
    let postModel := postModelOf m posT
    if posT.shape.length < 3 then
      (.error (.unsupportedShape posT.shape), postModel)
    else
      let d0 := posT.shape.getD 0 0
      let d1 := posT.shape.getD 1 0
      let d2 := posT.shape.getD 2 0
      if d1 ≠ 3 ∨ d2 ≠ 3 then
        (.error (.unsupportedShape [d0, d1, d2]), postModel)
      else if ¬(d0.den = 1 ∧ 0 ≤ d0) then
        (.error .allocRangeError, postModel)
      else
        (.ok (resolveSuccess expF m opts posT san), postModel)

/-! Binary container parser (containerParser.ts) and format detection
(detectFormat.ts, tgspParser.ts, tsgdParser.ts, formatLoader.ts). -/

/-- A raw byte buffer. -/
abbrev Bytes := List Nat

/-- Little-endian read of `k` bytes starting at `off` (DataView access;
reads in the parser happen only inside bound-checked ranges, so the
out-of-range default 0 is never observable). -/
def readLE (b : Bytes) (off : Nat) : Nat → Nat
  | 0 => 0
  | k + 1 => b.getD off 0 + 256 * readLE b (off + 1) k

/-- The container dialects a buffer's magic can announce. -/
inductive Format where
  | TGSP
  | TSGD
  | TGSD
deriving DecidableEq, Repr

/-- The 4 ASCII magic bytes of each dialect. -/
def magicBytes : Format → Bytes
  | .TGSP => [84, 71, 83, 80]
  | .TSGD => [84, 83, 71, 68]
  | .TGSD => [84, 71, 83, 68]

/-- The format tag stored on a parsed model ('TGSP' or 'TSGD'; the TGSD
alias collapses onto TSGD). -/
inductive FormatTag where
  | TGSP
  | TSGD
deriving DecidableEq, Repr

/-- Which concrete parser the detector selects. -/
inductive ParserKind where
  | tgsp
  | tsgd
deriving DecidableEq, Repr

/-- Container parsing failures, one constructor per throw site, named per
the spec's error taxonomy and carrying the data the source's message
reports.  `invalidHeader` covers the two header throw sites (undecodable
JSON, and a decoded header lacking the tensors array).
`typedArrayRangeError` models the host `RangeError` raised when a typed
array is constructed over a byte range whose length is not a multiple of
the element width (reachable only for tensors that bypass the size
check). -/
inductive ParseErr where
  | bufferTooSmallDetect
  | unsupportedFormat (magic : Bytes)
  | bufferTooSmall (got : Nat)
  | badMagic (expected : Format) (got : Bytes)
  | invalidTOCLength (tocLen : Nat)
  | headerTOCOverflow (dataStart len : Nat)
  | invalidHeader
  | headerTensorCountMismatch (headerCount tocCount : Nat)
  | unknownDType (code idx : Nat)
  | invalidTensorBounds (name : String) (relOffset nbytes : Nat)
  | invalidShapeDimension (dim : ℚ)
  | sizeMismatch (name : String) (expected : ℚ) (toc : Nat)
  | typedArrayRangeError (nbytes width : Nat)
deriving DecidableEq, Repr

/-- DTYPE_CODE_TO_NAME: the closed dtype-code enumeration. -/
def dtypeOfCode : Nat → Option DType
  | 1 => some .f16
  | 2 => some .f32
  | 3 => some .u8
  | 4 => some .i32
  | 5 => some .i64
  | _ => none

/-- DTYPE_BYTES: element byte width per dtype. -/
def dtypeBytes : DType → Nat
  | .f16 => 2
  | .f32 => 4
  | .u8 => 1
  | .i32 => 4
  | .i64 => 8

/-- One tensor definition of the JSON metadata header: optional name and
optional shape (absent fields fall back to defaults in the parser). -/
structure TensorDef where
  name : Option String
  shape : Option (List ℚ)
deriving DecidableEq, Repr

/-- The decoded JSON metadata header: the tensor-definitions array (none
when the parsed value is falsy or the field is not an array) plus the
spherical-harmonics degree hints the resolver reads. -/
structure HeaderJson where
  tensors : Option (List TensorDef)
  paramsActiveShDegree : Option ℚ
  activeShDegree : Option ℚ
deriving DecidableEq, Repr

/-- containerParser.ts `product`: 0 for an empty shape, otherwise the
dimension product starting from 1, failing on a non-integer or negative
dimension. -/
def shapeProductGo (acc : ℚ) : List ℚ → Except ParseErr ℚ
  | [] => .ok acc
  | d :: tl =>
    if d.den = 1 ∧ 0 ≤ d then shapeProductGo (acc * d) tl
    else .error (.invalidShapeDimension d)

/-- Element count derived from a shape (the source's `product`). -/
def shapeProduct (shape : List ℚ) : Except ParseErr ℚ :=
  match shape with
  | [] => .ok 0
  | _ => shapeProductGo 1 shape

/-- Two's-complement reading of a `w`-bit little-endian word. -/
def toSigned (n w : Nat) : ℤ :=
  if n < 2 ^ (w - 1) then (n : ℤ) else (n : ℤ) - 2 ^ w

/-- containerParser.ts `float16ToFloat32`: bit-level half-precision
expansion.  An all-ones exponent field saturates to ±65504 instead of
producing NaN or an infinity; a zero fraction with zero exponent gives 0
(the source returns literal +0 whatever the sign bit). -/
def float16ToFloat32 (fp16 : Nat) : ℚ :=
  let sign := (fp16 &&& 0x8000) >>> 15
  let exponent := (fp16 &&& 0x7c00) >>> 10
  let fraction := fp16 &&& 0x03ff
  if exponent = 0 then
    if fraction = 0 then 0
    else (if sign = 1 then -1 else 1) * (2 : ℚ) ^ (-14 : ℤ) * ((fraction : ℚ) / 2 ^ 10)
  else if exponent = 31 then
    if sign = 1 then -65504 else 65504
  else
    (if sign = 1 then -1 else 1) * (2 : ℚ) ^ ((exponent : ℤ) - 15) * (1 + (fraction : ℚ) / 2 ^ 10)

/-- Half-precision decoding as the spec words it: signed zero on a zero
exponent field and mantissa; sign × 2^−14 × (mantissa/1024) on a zero
exponent field with nonzero mantissa; sign-selected ±65504 whenever the
exponent field is 31; sign × 2^(exponent−15) × (1 + mantissa/1024)
otherwise. -/
def float16SpecValue (fp16 : Nat) : ℚ :=
  let sign : ℚ := if (fp16 &&& 0x8000) >>> 15 = 1 then -1 else 1
  let exponent := (fp16 &&& 0x7c00) >>> 10
  let mantissa := fp16 &&& 0x03ff
  if exponent = 0 ∧ mantissa = 0 then sign * 0
  else if exponent = 0 then sign * (2 : ℚ) ^ (-14 : ℤ) * ((mantissa : ℚ) / 1024)
  else if exponent = 31 then sign * 65504
  else sign * (2 : ℚ) ^ ((exponent : ℤ) - 15) * (1 + (mantissa : ℚ) / 1024)

/-- Bit-level decoding of a 32-bit float word (the reinterpretation the
host performs for an f32 tensor payload). -/
def bitsToF32 (bits : Nat) : F32 :=
  let sign := (bits >>> 31) &&& 1
  let exponent := (bits >>> 23) &&& 0xff
  let mantissa := bits &&& 0x7fffff
  if exponent = 255 then
    if mantissa = 0 then (if sign = 1 then .ninf else .inf) else .nan
  else if exponent = 0 then
    .val ((if sign = 1 then -1 else 1) * (2 : ℚ) ^ (-126 : ℤ) * ((mantissa : ℚ) / 2 ^ 23))
  else
    .val ((if sign = 1 then -1 else 1) * (2 : ℚ) ^ ((exponent : ℤ) - 127) * (1 + (mantissa : ℚ) / 2 ^ 23))

/-- containerParser.ts `readTypedTensor`: reinterpret the byte range per
dtype.  f32 and f16 produce a `Float32Array` (f16 expanding through the
half-precision decoder); u8, i32 and i64 produce other typed-array kinds
(integer-to-number conversion modelled exact). -/
def readTypedTensor (bytes : Bytes) (absOffset nbytes : Nat) : DType → TensorData
  | .f32 => .f32Arr ((List.range (nbytes / 4)).map (fun j =>
      bitsToF32 (readLE bytes (absOffset + 4 * j) 4)))
  | .f16 => .f32Arr ((List.range (nbytes / 2)).map (fun j =>
      F32.val (float16ToFloat32 (readLE bytes (absOffset + 2 * j) 2))))
  | .u8 => .otherArr ((List.range nbytes).map (fun j =>
      F32.val ((bytes.getD (absOffset + j) 0 : ℚ))))
  | .i32 => .otherArr ((List.range (nbytes / 4)).map (fun j =>
      F32.val ((toSigned (readLE bytes (absOffset + 4 * j) 4) 32 : ℚ))))
  | .i64 => .otherArr ((List.range (nbytes / 8)).map (fun j =>
      F32.val ((toSigned (readLE bytes (absOffset + 8 * j) 8) 64 : ℚ))))

/-- The body of the parser's per-TOC-entry loop: read the entry's fields
(the 8-byte identifier is read but unused), map the dtype code, take name
and shape from the positionally matching definition, check bounds, check
the shape-derived size when the element product is positive, and decode
the payload. -/
def parseTocEntry (bytes : Bytes) (dataSectionStart tocBase : Nat)
    (defs : List TensorDef) (i : Nat) : Except ParseErr (String × TensorRecord) :=
  let entryOff := tocBase + 32 * i
  let relOffset := readLE bytes (entryOff + 8) 8
  let nbytes := readLE bytes (entryOff + 16) 8
  let dtypeCode := readLE bytes (entryOff + 24) 4
  match dtypeOfCode dtypeCode with
  | none => .error (.unknownDType dtypeCode i)
  | some dtype =>
    let d := defs.getD i { name := none, shape := none }
    let name := d.name.getD ("tensor_" ++ toString i)
    let shape := d.shape.getD []
    let absOffset := dataSectionStart + relOffset
    if absOffset + nbytes > bytes.length then
      .error (.invalidTensorBounds name relOffset nbytes)
    else
      match shapeProduct shape with
      | .error e => .error e
      | .ok elemCount =>
        if 0 < elemCount ∧ elemCount * (dtypeBytes dtype : ℚ) ≠ (nbytes : ℚ) then
          .error (.sizeMismatch name (elemCount * (dtypeBytes dtype : ℚ)) nbytes)
        else if nbytes % dtypeBytes dtype ≠ 0 then
          .error (.typedArrayRangeError nbytes (dtypeBytes dtype))
        else
          .ok (name, { data := readTypedTensor bytes absOffset nbytes dtype
                       shape := shape, dtype := dtype })

/-- Insert a named record into the mapping; a duplicate name overwrites
the earlier record in place (last TOC order wins, insertion order kept). -/
def upsertTensor (ts : List (String × TensorRecord)) (name : String) (r : TensorRecord) :
    List (String × TensorRecord) :=
  if ts.any (fun p => p.1 == name) then
    ts.map (fun p => if p.1 == name then (name, r) else p)
  else ts ++ [(name, r)]

/-- The parser's TOC loop, recursing on the count of entries still to
process (`i` is the index of the next entry). -/
def parseEntriesGo (bytes : Bytes) (dataSectionStart tocBase : Nat)
    (defs : List TensorDef) (i : Nat) :
    Nat → List (String × TensorRecord) → Except ParseErr (List (String × TensorRecord))
  | 0, acc => .ok acc
  | remaining + 1, acc =>
    match parseTocEntry bytes dataSectionStart tocBase defs i with
    | .error e => .error e
    | .ok (name, r) =>
      parseEntriesGo bytes dataSectionStart tocBase defs (i + 1) remaining (upsertTensor acc name r)

/-- The parsed container (types.ts `ParsedModel` as built by the parser),
with the metadata record inlined. -/
structure ParsedContainer where
  format : FormatTag
  version : Nat
  header : HeaderJson
  tensors : List (String × TensorRecord)
  metaTensorCount : Nat
  metaNames : List String
  metaDataSectionStart : Nat
deriving DecidableEq, Repr

/-- Assembly of the parsed container from the decoded pieces (the
return value at the end of `parseContainer`). -/
def mkParsedContainer (expectedFormat : Format) (version : Nat) (header : HeaderJson)
    (tensorCount dataSectionStart : Nat) (ts : List (String × TensorRecord)) :
    ParsedContainer :=
  { format := if expectedFormat = .TGSP then .TGSP else .TSGD
    version := version
    header := header
    tensors := ts
    metaTensorCount := tensorCount
    metaNames := ts.map (fun p => p.1)
    metaDataSectionStart := dataSectionStart }

/-- containerParser.ts `parseContainer`: the structural checks in source
order, then the per-entry loop.  `decodeHeader` abstracts the host's
UTF-8 + `JSON.parse` decoding of the metadata header bytes (`none` when
decoding throws; a falsy or tensors-less header carries `tensors =
none`). -/
def parseContainer (decodeHeader : Bytes → Option HeaderJson) (bytes : Bytes)
    (expectedFormat : Format) : Except ParseErr ParsedContainer :=
  if bytes.length < 32 then .error (.bufferTooSmall bytes.length)
  else if bytes.take 4 ≠ magicBytes expectedFormat then
    .error (.badMagic expectedFormat (bytes.take 4))
  else
    let version := readLE bytes 4 4
    let headerLen := readLE bytes 8 4
    let tocLen := readLE bytes 12 4
    if tocLen % 32 ≠ 0 then .error (.invalidTOCLength tocLen)
    else if 32 + headerLen + tocLen > bytes.length then
      .error (.headerTOCOverflow (32 + headerLen + tocLen) bytes.length)
    else
      match decodeHeader ((bytes.drop 32).take headerLen) with
      | none => .error .invalidHeader
      | some header =>
        match header.tensors with
        | none => .error .invalidHeader
        | some defs =>
          let tensorCount := tocLen / 32
          if defs.length < tensorCount then
            .error (.headerTensorCountMismatch defs.length tensorCount)
          else
            (parseEntriesGo bytes (32 + headerLen + tocLen) (32 + headerLen)
                defs 0 tensorCount []).map
              (mkParsedContainer expectedFormat version header tensorCount
                (32 + headerLen + tocLen))

/-- detectFormat.ts result record. -/
structure Detected where
  format : FormatTag
  parser : ParserKind
  magic : Format
deriving DecidableEq, Repr

/-- detectFormat.ts `detectFormat`: classify the first four bytes as one
of the known dialect magics, keeping the exact magic seen. -/
def detectFormat (bytes : Bytes) : Except ParseErr Detected :=
  if bytes.length < 4 then .error .bufferTooSmallDetect
  else if bytes.take 4 = magicBytes .TGSP then .ok ⟨.TGSP, .tgsp, .TGSP⟩
  else if bytes.take 4 = magicBytes .TSGD then .ok ⟨.TSGD, .tsgd, .TSGD⟩
  else if bytes.take 4 = magicBytes .TGSD then .ok ⟨.TSGD, .tsgd, .TGSD⟩
  else .error (.unsupportedFormat (bytes.take 4))

/-- tgspParser.ts `parseTGSP`. -/
def parseTGSP (decodeHeader : Bytes → Option HeaderJson) (bytes : Bytes) :
    Except ParseErr ParsedContainer :=
  parseContainer decodeHeader bytes .TGSP

/-- tsgdParser.ts `parseTSGD`: a TGSP-style container parse with the
caller-supplied magic ('TSGD' or its 'TGSD' alias) forwarded verbatim. -/
def parseTSGD (decodeHeader : Bytes → Option HeaderJson) (bytes : Bytes) (magic : Format) :
    Except ParseErr ParsedContainer :=
  parseContainer decodeHeader bytes magic

/-- formatLoader.ts `FormatLoader.parse`: detect the dialect, then hand
the buffer to the matching parser, forwarding the detected magic. -/
def formatLoaderParse (decodeHeader : Bytes → Option HeaderJson) (bytes : Bytes) :
    Except ParseErr ParsedContainer :=
  match detectFormat bytes with
  | .error e => .error e
  | .ok d =>
    match d.parser with
    | .tgsp => parseTGSP decodeHeader bytes
    | .tsgd => parseTSGD decodeHeader bytes d.magic

/-- Whether an error is the magic-check failure. -/
def isBadMagicErr : ParseErr → Bool
  | .badMagic _ _ => true
  | _ => false

/-- Whether a parse result is the magic-check failure. -/
def isBadMagicResult {α : Type} : Except ParseErr α → Bool
  | .error e => isBadMagicErr e
  | .ok _ => false

/-! Shared lemmas. -/

theorem offsetVal_negSucc (back fwd : List F32) (k : Nat) :
    offsetVal back fwd (-(k + 1 : Int)) = back[k]? := by
  simp only [offsetVal]
  rw [if_pos (by omega)]
  norm_num

theorem offsetVal_possucc (back fwd : List F32) (k : Nat) :
    offsetVal back fwd ((k + 1 : Int)) = fwd[k]? := by
  simp only [offsetVal]
  rw [if_neg (by omega)]
  norm_num

/-- Unfolding the spec search over one backward/forward offset pair: it
acts exactly like one step of the source's inner loop. -/
theorem firstFiniteAt_pair (back fwd : List F32) (k : Nat) (rest : List Int) :
    firstFiniteAt back fwd (-(k + 1 : Int) :: (k + 1 : Int) :: rest) =
      (match searchStep back fwd k with
       | some v => v
       | none => firstFiniteAt back fwd rest) := by
  rw [firstFiniteAt, offsetVal_negSucc]
  cases hb : back[k]? with
  | some v =>
    cases hvf : v.isFinite with
    | true => simp [searchStep, finAt, getAt, hb, hvf]
    | false =>
      simp only [hvf, Bool.false_eq_true, if_false]
      rw [firstFiniteAt, offsetVal_possucc]
      cases hf : fwd[k]? with
      | some w =>
        cases hwf : w.isFinite with
        | true => simp [searchStep, finAt, getAt, hb, hvf, hf, hwf]
        | false => simp [searchStep, finAt, getAt, hb, hvf, hf, hwf]
      | none => simp [searchStep, finAt, getAt, hb, hvf, hf]
  | none =>
    rw [firstFiniteAt, offsetVal_possucc]
    cases hf : fwd[k]? with
    | some w =>
      cases hwf : w.isFinite with
      | true => simp [searchStep, finAt, getAt, hb, hf, hwf]
      | false => simp [searchStep, finAt, getAt, hb, hf, hwf]
    | none => simp [searchStep, finAt, getAt, hb, hf]

/-- The source's backward-then-forward inner loop visits exactly the
spec's interleaved offset sequence. -/
theorem findSome_searchStep_eq_firstFiniteAt (back fwd : List F32) (js : List Nat) :
    ((js.findSome? (searchStep back fwd)).getD (F32.val 0)) =
      firstFiniteAt back fwd (js.flatMap (fun k => [-(k + 1 : Int), (k + 1 : Int)])) := by
  induction js with
  | nil => rfl
  | cons k js ih =>
    rw [List.findSome?_cons, List.flatMap_cons]
    show _ = firstFiniteAt back fwd (-(k + 1 : Int) :: (k + 1 : Int) :: _)
    rw [firstFiniteAt_pair]
    cases hstep : searchStep back fwd k with
    | some v => simp
    | none => simpa using ih

theorem searchOut_eq_firstFiniteAt (back fwd : List F32) :
    searchOut back fwd = firstFiniteAt back fwd outwardOffsets :=
  findSome_searchStep_eq_firstFiniteAt back fwd (List.range 31)

/-- The source walk and the spec walk coincide. -/
theorem sanGo_eq_sanSpecGo (rest : List F32) : ∀ back r,
    sanGo back rest r = sanSpecGo back rest r := by
  induction rest with
  | nil => intro back r; rfl
  | cons v tl ih =>
    intro back r
    simp only [sanGo, sanSpecGo]
    cases v.isFinite with
    | true => simpa using ih _ _
    | false => simpa [searchOut_eq_firstFiniteAt] using ih _ _

/-- The replacement count tallies exactly the non-finite entries of the
remaining input. -/
theorem sanGo_count (rest : List F32) : ∀ back r,
    (sanGo back rest r).2 = r + countNonFinite rest := by
  induction rest with
  | nil => intro back r; simp [sanGo, countNonFinite]
  | cons v tl ih =>
    intro back r
    cases hv : v.isFinite with
    | true => simp [sanGo, hv, ih, countNonFinite]
    | false => simp [sanGo, hv, ih, countNonFinite]; omega

/-- Sanitization preserves the buffer length. -/
theorem sanGo_length (rest : List F32) : ∀ back r,
    (sanGo back rest r).1.length = back.length + rest.length := by
  induction rest with
  | nil => intro back r; simp [sanGo]
  | cons v tl ih =>
    intro back r
    cases hv : v.isFinite with
    | true => simp [sanGo, hv, ih]; omega
    | false => simp [sanGo, hv, ih]; omega

/-- A buffer with no non-finite entry is returned unchanged with count 0. -/
theorem sanGo_all_finite (rest : List F32) : ∀ back r,
    (∀ v ∈ rest, v.isFinite) → sanGo back rest r = (back.reverse ++ rest, r) := by
  induction rest with
  | nil => intro back r _; simp [sanGo]
  | cons v tl ih =>
    intro back r h
    have hv : v.isFinite := h v (by simp)
    rw [sanGo, if_pos hv, ih (v :: back) r (fun w hw => h w (by simp [hw]))]
    simp

theorem sanitize_all_finite (vs : List F32) (h : ∀ v ∈ vs, v.isFinite) :
    sanitizeFiniteInPlace vs = (vs, 0) := by
  rw [sanitizeFiniteInPlace, sanGo_all_finite vs [] 0 h]
  simp

/-- Unrolling the per-primitive broadcast by one primitive. -/
theorem broadcast3_succ (g : Nat → F32) (n : Nat) :
    broadcast3 g (n + 1) = [g 0, g 0, g 0] ++ broadcast3 (fun t => g (t + 1)) n := by
  rw [broadcast3, broadcast3, List.range_succ_eq_map, List.flatMap_cons, List.flatMap_map]

/-- Vertex `3 * t + k` of the broadcast buffer holds primitive `t`'s
value: each primitive's value is written identically to its 3 vertices. -/
theorem broadcast3_get (g : Nat → F32) (n t k : Nat) (ht : t < n) (hk : k < 3) :
    (broadcast3 g n)[3 * t + k]? = some (g t) := by
  induction n generalizing g t with
  | zero => omega
  | succ n ih =>
    rw [broadcast3_succ]
    cases t with
    | zero =>
      rw [List.getElem?_append_left (by simp; omega)]
      interval_cases k <;> rfl
    | succ t =>
      have hlen : (3 * (t + 1) + k) = 3 + (3 * t + k) := by ring
      rw [hlen, List.getElem?_append_right (by simp)]
      simpa using ih (fun t => g (t + 1)) t (by omega)

theorem resolve_missing (expF : F32 → F32) (m : ParsedModel) (o : ResolveOptions)
    (h : findTensor m.tensors positionAliases = none) :
    resolveSemantics expF m o = (.error (.missingPositionTensor positionAliases), m) := by
  unfold resolveSemantics
  rw [h]

theorem resolve_shortShape (expF : F32 → F32) (m : ParsedModel) (o : ResolveOptions)
    (posT : TensorRecord) (hfind : findTensor m.tensors positionAliases = some posT)
    (hlen : posT.shape.length < 3) :
    resolveSemantics expF m o = (.error (.unsupportedShape posT.shape), postModelOf m posT) := by
  unfold resolveSemantics
  rw [hfind]
  simp only [if_pos hlen]

theorem resolve_badDims (expF : F32 → F32) (m : ParsedModel) (o : ResolveOptions)
    (posT : TensorRecord) (hfind : findTensor m.tensors positionAliases = some posT)
    (hlen : ¬ posT.shape.length < 3)
    (hbad : ¬ posT.shape.getD 1 0 = 3 ∨ ¬ posT.shape.getD 2 0 = 3) :
    resolveSemantics expF m o =
      (.error (.unsupportedShape
        [posT.shape.getD 0 0, posT.shape.getD 1 0, posT.shape.getD 2 0]),
       postModelOf m posT) := by
  unfold resolveSemantics
  rw [hfind]
  simp only [if_neg hlen, if_pos hbad]

theorem resolve_nonIntCount (expF : F32 → F32) (m : ParsedModel) (o : ResolveOptions)
    (posT : TensorRecord) (hfind : findTensor m.tensors positionAliases = some posT)
    (hlen : ¬ posT.shape.length < 3)
    (h1 : posT.shape.getD 1 0 = 3) (h2 : posT.shape.getD 2 0 = 3)
    (hbad : ¬ ((posT.shape.getD 0 0).den = 1 ∧ 0 ≤ posT.shape.getD 0 0)) :
    resolveSemantics expF m o = (.error .allocRangeError, postModelOf m posT) := by
  unfold resolveSemantics
  rw [hfind]
  simp only [if_neg hlen,
    if_neg (show ¬(¬posT.shape.getD 1 0 = 3 ∨ ¬posT.shape.getD 2 0 = 3) by
      push_neg
      exact ⟨h1, h2⟩),
    if_pos hbad]

theorem resolve_success_eq (expF : F32 → F32) (m : ParsedModel) (o : ResolveOptions)
    (posT : TensorRecord) (hfind : findTensor m.tensors positionAliases = some posT)
    (hlen : ¬ posT.shape.length < 3)
    (h1 : posT.shape.getD 1 0 = 3) (h2 : posT.shape.getD 2 0 = 3)
    (hden : (posT.shape.getD 0 0).den = 1) (hnn : 0 ≤ posT.shape.getD 0 0) :
    resolveSemantics expF m o =
      (.ok (resolveSuccess expF m o posT (sanitizeFiniteInPlace (toFloat32Array posT.data))),
       postModelOf m posT) := by
  unfold resolveSemantics
  rw [hfind]
  simp only [if_neg hlen,
    if_neg (show ¬(¬posT.shape.getD 1 0 = 3 ∨ ¬posT.shape.getD 2 0 = 3) by
      push_neg
      exact ⟨h1, h2⟩),
    if_neg (show ¬¬((posT.shape.getD 0 0).den = 1 ∧ 0 ≤ posT.shape.getD 0 0) from
      not_not_intro ⟨hden, hnn⟩)]

/-- Inversion of a successful resolve: the position tensor was found and
the bundle is the success-path record. -/
theorem resolve_ok_inv (expF : F32 → F32) (m : ParsedModel) (o : ResolveOptions)
    (sd : SemanticData) (hok : (resolveSemantics expF m o).1 = .ok sd) :
    ∃ posT, findTensor m.tensors positionAliases = some posT ∧
      sd = resolveSuccess expF m o posT (sanitizeFiniteInPlace (toFloat32Array posT.data)) := by
  cases hfind : findTensor m.tensors positionAliases with
  | none =>
    rw [resolve_missing expF m o hfind] at hok
    simp at hok
  | some posT =>
    refine ⟨posT, rfl, ?_⟩
    by_cases hlen : posT.shape.length < 3
    · rw [resolve_shortShape expF m o posT hfind hlen] at hok
      simp at hok
    · by_cases h1 : posT.shape.getD 1 0 = 3
      · by_cases h2 : posT.shape.getD 2 0 = 3
        · by_cases hint : (posT.shape.getD 0 0).den = 1 ∧ 0 ≤ posT.shape.getD 0 0
          · rw [resolve_success_eq expF m o posT hfind hlen h1 h2 hint.1 hint.2] at hok
            simpa using hok.symm
          · rw [resolve_nonIntCount expF m o posT hfind hlen h1 h2 hint] at hok
            simp at hok
        · rw [resolve_badDims expF m o posT hfind hlen (Or.inr h2)] at hok
          simp at hok
      · rw [resolve_badDims expF m o posT hfind hlen (Or.inl h1)] at hok
        simp at hok

/-- The opacity field of the success bundle, when the opacity tensor is
present: the policy output broadcast per primitive with default 1. -/
theorem success_opacity (expF : F32 → F32) (m : ParsedModel) (o : ResolveOptions)
    (posT ot : TensorRecord) (san : List F32 × Nat)
    (hop : findTensor m.tensors opacityAliases = some ot) :
    (resolveSuccess expF m o posT san).opacity =
      some (broadcast3
        (fun tri => (applyOpacityPolicy expF (toFloat32Array ot.data) o.opacityMode).1.getD
          tri (F32.val 1)) (posT.shape.getD 0 0).num.toNat,
        (applyOpacityPolicy expF (toFloat32Array ot.data) o.opacityMode).2) := by
  simp only [resolveSuccess, hop]

/-- The sigma field of the success bundle, when the sigma tensor is
present: the policy output broadcast per primitive with default 0.1. -/
theorem success_sigma (expF : F32 → F32) (m : ParsedModel) (o : ResolveOptions)
    (posT st : TensorRecord) (san : List F32 × Nat)
    (hst : findTensor m.tensors sigmaAliases = some st) :
    (resolveSuccess expF m o posT san).sigma =
      some (broadcast3
        (fun tri => (applySigmaPolicy expF (toFloat32Array st.data) o.sigmaMode).1.getD
          tri (F32.val (1/10))) (posT.shape.getD 0 0).num.toNat,
        (applySigmaPolicy expF (toFloat32Array st.data) o.sigmaMode).2) := by
  simp only [resolveSuccess, hst]

theorem resolve_post (expF : F32 → F32) (m : ParsedModel) (o : ResolveOptions)
    (posT : TensorRecord) (hfind : findTensor m.tensors positionAliases = some posT) :
    (resolveSemantics expF m o).2 = postModelOf m posT := by
  unfold resolveSemantics
  rw [hfind]
  dsimp only
  split
  · rfl
  · split
    · rfl
    · split <;> rfl

theorem findTensorName_of_find (ts : List (String × TensorRecord)) (aliases : List String)
    (r : TensorRecord) (h : findTensor ts aliases = some r) :
    ∃ key, findTensorName ts aliases = some key := by
  induction aliases with
  | nil => simp [findTensor] at h
  | cons a tl ih =>
    rw [findTensor] at h
    rw [findTensorName, List.find?_cons]
    cases hl : lookupTensor ts a with
    | some r2 => exact ⟨a, by simp [hl]⟩
    | none =>
      rw [hl] at h
      obtain ⟨key, hk⟩ := ih h
      rw [findTensorName] at hk
      simp [hl, hk]

theorem findTensor_eq_lookup (ts : List (String × TensorRecord)) (aliases : List String)
    (key : String) (h : findTensorName ts aliases = some key) :
    findTensor ts aliases = lookupTensor ts key := by
  induction aliases with
  | nil => simp [findTensorName] at h
  | cons a tl ih =>
    rw [findTensorName, List.find?_cons] at h
    rw [findTensor]
    cases hl : lookupTensor ts a with
    | some r =>
      have ha : a = key := by
        simp only [hl, Option.isSome_some] at h
        exact Option.some.inj h
      rw [← ha, hl]
    | none =>
      simp only [hl, Option.isSome_none] at h
      rw [← findTensorName] at h
      exact ih h

theorem setTensorData_skip (ts : List (String × TensorRecord)) (key : String) (d : TensorData)
    (h : ∀ q ∈ ts, ¬ q.1 = key) : setTensorData ts key d = ts := by
  induction ts with
  | nil => rfl
  | cons p tl ih =>
    simp only [setTensorData, List.map_cons]
    rw [if_neg (h p (by simp))]
    have htl := ih (fun q hq => h q (by simp [hq]))
    rw [setTensorData] at htl
    rw [htl]

theorem setTensorData_id (ts : List (String × TensorRecord)) (key : String)
    (r : TensorRecord) (hnd : (ts.map Prod.fst).Nodup)
    (hlk : lookupTensor ts key = some r) : setTensorData ts key r.data = ts := by
  induction ts with
  | nil => simp [lookupTensor] at hlk
  | cons p tl ih =>
    rw [List.map_cons] at hnd
    obtain ⟨hnotin, hnd2⟩ := List.nodup_cons.mp hnd
    simp only [setTensorData, List.map_cons]
    by_cases hp : p.1 = key
    · have hb : (p.1 == key) = true := by simpa using hp
      simp only [lookupTensor, List.find?_cons, hb] at hlk
      have hr : p.2 = r := Option.some.inj (by simpa using hlk)
      have hskip : ∀ q ∈ tl, ¬ q.1 = key := by
        intro q hq hqk
        exact hnotin (by rw [hp, ← hqk]; exact List.mem_map_of_mem Prod.fst hq)
      have htl := setTensorData_skip tl key r.data hskip
      rw [setTensorData] at htl
      rw [htl]
      rw [if_pos hp]
      rw [← hr]
    · have hb : (p.1 == key) = false := by simpa using hp
      simp only [lookupTensor, List.find?_cons, hb] at hlk
      rw [if_neg hp]
      have htl := ih hnd2 hlk
      rw [setTensorData] at htl
      rw [htl]

/-! Claim theorems. -/

/-- C4: for every position buffer, sanitization replaces each non-finite
entry by the first finite value found searching outward up to 31 steps,
alternating backward/forward (offsets −1, +1, −2, +2, …) and preferring
the backward direction at equal distance, substituting 0 when no finite
value lies in the window (the source walk equals the spec-side
offset-sequence walk); it never fails (it is total and
length-preserving), the returned count equals the number of replaced
(non-finite) entries, and [NaN, 1.0, 2.0] becomes [1.0, 1.0, 2.0] with
count 1. -/
theorem C4_sanitize_outward_search :
    (∀ vs : List F32, sanitizeFiniteInPlace vs = sanitizeSpec vs) ∧
    (∀ vs : List F32, (sanitizeFiniteInPlace vs).2 = countNonFinite vs) ∧
    (∀ vs : List F32, (sanitizeFiniteInPlace vs).1.length = vs.length) ∧
    sanitizeFiniteInPlace [F32.nan, F32.val 1, F32.val 2] =
      ([F32.val 1, F32.val 1, F32.val 2], 1) := by
  refine ⟨fun vs => sanGo_eq_sanSpecGo vs [] 0, fun vs => ?_, fun vs => ?_, by decide⟩
  · rw [sanitizeFiniteInPlace, sanGo_count]
    omega
  · rw [sanitizeFiniteInPlace, sanGo_length]
    simp

/-- C3: for every 16-bit input pattern, the half-precision decoder
returns signed zero on zero exponent field and mantissa; sign × 2^−14 ×
(mantissa/1024) on zero exponent field and nonzero mantissa; ±65504
whenever the exponent field is 31 regardless of mantissa; and sign ×
2^(exponent−15) × (1 + mantissa/1024) otherwise — with 0x3C00 ↦ 1.0,
0x0000 ↦ 0.0, 0xC000 ↦ −2.0, 0x7C00 ↦ 65504.0, 0xFC00 ↦ −65504.0. -/
theorem C3_half_float_decode :
    (∀ n : Nat, n < 65536 → float16ToFloat32 n = float16SpecValue n) ∧
    float16ToFloat32 0x3C00 = 1 ∧ float16ToFloat32 0x0000 = 0 ∧
    float16ToFloat32 0xC000 = -2 ∧ float16ToFloat32 0x7C00 = 65504 ∧
    float16ToFloat32 0xFC00 = -65504 := by
  constructor
  · intro n _
    simp only [float16ToFloat32, float16SpecValue]
    by_cases he : (n &&& 31744) >>> 10 = 0
    · by_cases hf : n &&& 1023 = 0
      · simp [he, hf]
      · by_cases hs : (n &&& 32768) >>> 15 = 1 <;> simp [he, hf, hs] <;> norm_num
    · by_cases h31 : (n &&& 31744) >>> 10 = 31
      · by_cases hs : (n &&& 32768) >>> 15 = 1 <;> simp [he, h31, hs] <;> norm_num
      · by_cases hs : (n &&& 32768) >>> 15 = 1 <;> simp [he, h31, hs] <;> norm_num
  refine ⟨?_, ?_, ?_, ?_, ?_⟩ <;>
  · simp only [float16ToFloat32]
    norm_num [(by decide : (15360 &&& 32768) >>> 15 = 0),
      (by decide : (15360 &&& 31744) >>> 10 = 15),
      (by decide : 15360 &&& 1023 = 0), (by decide : (0 &&& 32768) >>> 15 = 0),
      (by decide : (0 &&& 31744) >>> 10 = 0), (by decide : 0 &&& 1023 = 0),
      (by decide : (49152 &&& 32768) >>> 15 = 1),
      (by decide : (49152 &&& 31744) >>> 10 = 16),
      (by decide : 49152 &&& 1023 = 0), (by decide : (31744 &&& 32768) >>> 15 = 0),
      (by decide : (31744 &&& 31744) >>> 10 = 31), (by decide : 31744 &&& 1023 = 0),
      (by decide : (64512 &&& 32768) >>> 15 = 1),
      (by decide : (64512 &&& 31744) >>> 10 = 31),
      (by decide : 64512 &&& 1023 = 0), (by decide : (31744 : Nat) >>> 10 = 31)]

/-- Witness for C3 at the concrete pattern 0x3C00. -/
theorem C3_half_float_decode_witness :
    0x3C00 < 65536 ∧ float16ToFloat32 0x3C00 = float16SpecValue 0x3C00 :=
  ⟨by norm_num, C3_half_float_decode.1 0x3C00 (by norm_num)⟩


/-- C7: for every opacity buffer, mode "logits" forces logit
interpretation, "linear" forces pass-through, and "auto" yields tag
"logits" exactly when some raw value lies outside [0,1]; logit values are
mapped through 1/(1+e^(−x)), linear values pass through, every output is
clamped to [0,1], and each primitive's value is broadcast identically to
its 3 vertices; a buffer containing 2.0 under "auto" is tagged "logits"
and that entry becomes sigmoid(2.0) = 1/(1+e^(−2)). -/
theorem C7_opacity_policy :
    (∀ (expF : F32 → F32) (vs : List F32), (applyOpacityPolicy expF vs .logits).2 = "logits") ∧
    (∀ (expF : F32 → F32) (vs : List F32), (applyOpacityPolicy expF vs .linear).2 = "linear") ∧
    (∀ (expF : F32 → F32) (vs : List F32),
      ((applyOpacityPolicy expF vs .auto).2 = "logits" ↔ ∃ v ∈ vs, outsideUnit v = true)) ∧
    (∀ (expF : F32 → F32) (vs : List F32) (mode : OpacityMode),
      (applyOpacityPolicy expF vs mode).2 = "logits" →
      (applyOpacityPolicy expF vs mode).1 = vs.map (fun v => clamp01 (sigmoid expF v))) ∧
    (∀ (expF : F32 → F32) (vs : List F32) (mode : OpacityMode),
      (applyOpacityPolicy expF vs mode).2 = "linear" →
      (applyOpacityPolicy expF vs mode).1 = vs.map clamp01) ∧
    (∀ (expF : F32 → F32) (m : ParsedModel) (o : ResolveOptions) (sd : SemanticData)
      (posT ot : TensorRecord), (resolveSemantics expF m o).1 = .ok sd →
      findTensor m.tensors positionAliases = some posT →
      findTensor m.tensors opacityAliases = some ot →
      sd.opacity = some (broadcast3
        (fun tri => (applyOpacityPolicy expF (toFloat32Array ot.data) o.opacityMode).1.getD
          tri (F32.val 1)) (posT.shape.getD 0 0).num.toNat,
        (applyOpacityPolicy expF (toFloat32Array ot.data) o.opacityMode).2)) ∧
    (∀ (g : Nat → F32) (n t k : Nat), t < n → k < 3 →
      (broadcast3 g n)[3 * t + k]? = some (g t)) ∧
    (∀ expF : F32 → F32, (applyOpacityPolicy expF [F32.val 2] .auto).2 = "logits") ∧
    (∀ (expF : F32 → F32) (e : ℚ), 0 ≤ e → expF (F32.neg (F32.val 2)) = F32.val e →
      (applyOpacityPolicy expF [F32.val 2] .auto).1 = [F32.val (1 / (1 + e))]) := by
  refine ⟨fun expF vs => rfl, fun expF vs => rfl, ?_, ?_, ?_, ?_, ?_, ?_, ?_⟩
  · intro expF vs
    cases h : anyOutsideUnit vs with
    | true =>
      have htag : (applyOpacityPolicy expF vs .auto).2 = "logits" := by
        simp [applyOpacityPolicy, h]
      rw [htag]
      simpa using List.any_eq_true.mp h
    | false =>
      have htag : (applyOpacityPolicy expF vs .auto).2 = "linear" := by
        simp [applyOpacityPolicy, h]
      rw [htag]
      constructor
      · intro hc
        exact absurd hc (by decide)
      · intro he
        have hany := List.any_eq_true.mpr (by simpa using he)
        rw [anyOutsideUnit] at h
        rw [h] at hany
        cases hany
  · intro expF vs mode h
    cases mode with
    | logits => rfl
    | linear => simp [applyOpacityPolicy] at h
    | auto =>
      cases ha : anyOutsideUnit vs with
      | true => simp [applyOpacityPolicy, ha]
      | false =>
        have htag : (applyOpacityPolicy expF vs .auto).2 = "linear" := by
          simp [applyOpacityPolicy, ha]
        rw [htag] at h
        exact absurd h (by decide)
  · intro expF vs mode h
    cases mode with
    | linear => rfl
    | logits => simp [applyOpacityPolicy] at h
    | auto =>
      cases ha : anyOutsideUnit vs with
      | false => simp [applyOpacityPolicy, ha]
      | true =>
        have htag : (applyOpacityPolicy expF vs .auto).2 = "logits" := by
          simp [applyOpacityPolicy, ha]
        rw [htag] at h
        exact absurd h (by decide)
  · intro expF m o sd posT ot hok hfind hop
    obtain ⟨posT2, hfind2, hsd⟩ := resolve_ok_inv expF m o sd hok
    have hpp : posT2 = posT := by
      rw [hfind] at hfind2
      exact (Option.some.inj hfind2).symm
    subst hpp
    rw [hsd]
    exact success_opacity expF m o posT2 ot _ hop
  · intro g n t k ht hk
    exact broadcast3_get g n t k ht hk
  · intro expF
    have h1 : anyOutsideUnit [F32.val 2] = true := by decide
    simp [applyOpacityPolicy, h1]
  · intro expF e he hexp
    have h1 : anyOutsideUnit [F32.val 2] = true := by decide
    have h2 : (1 : ℚ) + e ≠ 0 := by positivity
    have hle : (1 : ℚ) / (1 + e) ≤ 1 := by
      rw [div_le_one (by positivity)]
      linarith
    have hge : (0 : ℚ) ≤ 1 / (1 + e) := by positivity
    have hval : clamp01 (sigmoid expF (F32.val 2)) = F32.val (1 / (1 + e)) := by
      rw [sigmoid, hexp]
      have hadd : F32.add (F32.val 1) (F32.val e) = F32.val (1 + e) := rfl
      rw [hadd]
      have hdiv : F32.div (F32.val 1) (F32.val (1 + e)) = F32.val (1 / (1 + e)) := by
        rw [F32.div]
        rw [if_neg h2]
      rw [hdiv, clamp01]
      have hmin : F32.fmin (F32.val 1) (F32.val (1 / (1 + e))) =
          F32.val (min 1 (1 / (1 + e))) := rfl
      have hmax : F32.fmax (F32.val 0) (F32.val (min 1 (1 / (1 + e)))) =
          F32.val (max 0 (min 1 (1 / (1 + e)))) := rfl
      rw [hmin, hmax, min_eq_right hle, max_eq_right hge]
    simp [applyOpacityPolicy, h1, hval]

/-- Witness for C7: under the instantiation expF = const 0, the buffer
[2.0] in auto mode maps its entry through the logistic function. -/
theorem C7_opacity_policy_witness :
    (applyOpacityPolicy (fun _ => F32.val 0) [F32.val 2] .auto).1 = [F32.val (1 / (1 + 0))] :=
  C7_opacity_policy.2.2.2.2.2.2.2.2 (fun _ => F32.val 0) 0 le_rfl rfl


/-- C8: for every sigma buffer, mode "log" forces the log-domain
transform, "linear" forces pass-through, and "auto" yields tag "log"
exactly when some raw value is ≤ 0; log-domain values become 0.01 + e^x,
linear values pass through, every output is clamped to [1e-4, 10], and
each primitive's value is broadcast to its 3 vertices; a buffer
containing 0.0 under "auto" is tagged "log" and that entry becomes
1.01, unchanged by the clamp. -/
theorem C8_sigma_policy :
    (∀ (expF : F32 → F32) (vs : List F32), (applySigmaPolicy expF vs .log).2 = "log") ∧
    (∀ (expF : F32 → F32) (vs : List F32), (applySigmaPolicy expF vs .linear).2 = "linear") ∧
    (∀ (expF : F32 → F32) (vs : List F32),
      ((applySigmaPolicy expF vs .auto).2 = "log" ↔ ∃ v ∈ vs, nonPos v = true)) ∧
    (∀ (expF : F32 → F32) (vs : List F32) (mode : SigmaMode),
      (applySigmaPolicy expF vs mode).2 = "log" →
      (applySigmaPolicy expF vs mode).1 =
        vs.map (fun v => clampSigma (F32.add (F32.val (1/100)) (expF v)))) ∧
    (∀ (expF : F32 → F32) (vs : List F32) (mode : SigmaMode),
      (applySigmaPolicy expF vs mode).2 = "linear" →
      (applySigmaPolicy expF vs mode).1 = vs.map clampSigma) ∧
    (∀ (expF : F32 → F32) (m : ParsedModel) (o : ResolveOptions) (sd : SemanticData)
      (posT st : TensorRecord), (resolveSemantics expF m o).1 = .ok sd →
      findTensor m.tensors positionAliases = some posT →
      findTensor m.tensors sigmaAliases = some st →
      sd.sigma = some (broadcast3
        (fun tri => (applySigmaPolicy expF (toFloat32Array st.data) o.sigmaMode).1.getD
          tri (F32.val (1/10))) (posT.shape.getD 0 0).num.toNat,
        (applySigmaPolicy expF (toFloat32Array st.data) o.sigmaMode).2)) ∧
    (∀ (expF : F32 → F32), expF (F32.val 0) = F32.val 1 →
      applySigmaPolicy expF [F32.val 0] .auto = ([F32.val (101/100)], "log")) := by
  refine ⟨fun expF vs => rfl, fun expF vs => rfl, ?_, ?_, ?_, ?_, ?_⟩
  · intro expF vs
    cases h : vs.any nonPos with
    | true =>
      have htag : (applySigmaPolicy expF vs .auto).2 = "log" := by
        simp [applySigmaPolicy, h]
      rw [htag]
      simpa using List.any_eq_true.mp h
    | false =>
      have htag : (applySigmaPolicy expF vs .auto).2 = "linear" := by
        simp [applySigmaPolicy, h]
      rw [htag]
      constructor
      · intro hc
        exact absurd hc (by decide)
      · intro he
        have hany := List.any_eq_true.mpr (by simpa using he)
        rw [h] at hany
        cases hany
  · intro expF vs mode h
    cases mode with
    | log => rfl
    | linear => simp [applySigmaPolicy] at h
    | auto =>
      cases ha : vs.any nonPos with
      | true => simp [applySigmaPolicy, ha]
      | false =>
        have htag : (applySigmaPolicy expF vs .auto).2 = "linear" := by
          simp [applySigmaPolicy, ha]
        rw [htag] at h
        exact absurd h (by decide)
  · intro expF vs mode h
    cases mode with
    | linear => rfl
    | log => simp [applySigmaPolicy] at h
    | auto =>
      cases ha : vs.any nonPos with
      | false => simp [applySigmaPolicy, ha]
      | true =>
        have htag : (applySigmaPolicy expF vs .auto).2 = "log" := by
          simp [applySigmaPolicy, ha]
        rw [htag] at h
        exact absurd h (by decide)
  · intro expF m o sd posT st hok hfind hst
    obtain ⟨posT2, hfind2, hsd⟩ := resolve_ok_inv expF m o sd hok
    have hpp : posT2 = posT := by
      rw [hfind] at hfind2
      exact (Option.some.inj hfind2).symm
    subst hpp
    rw [hsd]
    exact success_sigma expF m o posT2 st _ hst
  · intro expF hexp
    have h1 : ([F32.val 0] : List F32).any nonPos = true := by decide
    have hval : clampSigma (F32.add (F32.val (100⁻¹ : ℚ)) (expF (F32.val 0))) =
        F32.val (101/100) := by
      rw [hexp]
      have hadd : F32.add (F32.val (100⁻¹ : ℚ)) (F32.val 1) = F32.val (100⁻¹ + 1) := rfl
      rw [hadd, clampSigma]
      have hmin : F32.fmin (F32.val 10) (F32.val (100⁻¹ + 1)) =
          F32.val (min 10 (100⁻¹ + 1)) := rfl
      have hmax : F32.fmax (F32.val (1/10000)) (F32.val (min 10 (100⁻¹ + 1))) =
          F32.val (max (1/10000) (min 10 (100⁻¹ + 1))) := rfl
      rw [hmin, hmax, min_eq_right (by norm_num), max_eq_right (by norm_num)]
      norm_num
    simp [applySigmaPolicy, h1, hval]

/-- Witness for C8: under the instantiation expF = const 1 (the value of
e^0), the buffer [0.0] in auto mode is tagged "log" and maps to 1.01. -/
theorem C8_sigma_policy_witness :
    applySigmaPolicy (fun _ => F32.val 1) [F32.val 0] .auto = ([F32.val (101/100)], "log") :=
  C8_sigma_policy.2.2.2.2.2.2 (fun _ => F32.val 1) rfl


/-- Counterexample for C5 as stated: a raw component 1.0 in a buffer whose
auto scan resolves to SH is transformed with the code's constant
0.28209479177387814, giving 0.78209479177387814 — which is not the
0.782095 the claim names. -/
theorem C5_color_policy_cex :
    (decodeColorDC [F32.val 1, F32.val 2] .f32 .auto).1.getD 0 (F32.val 0) =
      F32.val 0.78209479177387814 ∧
    (((0.78209479177387814 : ℚ)) == ((0.782095 : ℚ))) = false := by
  constructor
  · have h1 : anyOutsideUnit [F32.val 1, F32.val 2] = true := by decide
    have hval : clamp01 (F32.add (F32.mul (F32.val 1) (F32.val SH_C0)) (F32.val (2⁻¹ : ℚ))) =
        F32.val 0.78209479177387814 := by
      have hmul : F32.mul (F32.val 1) (F32.val SH_C0) = F32.val (1 * SH_C0) := rfl
      have hadd : F32.add (F32.val (1 * SH_C0)) (F32.val (2⁻¹ : ℚ)) =
          F32.val (1 * SH_C0 + 2⁻¹) := rfl
      rw [hmul, hadd, clamp01]
      have hmin : F32.fmin (F32.val 1) (F32.val (1 * SH_C0 + 2⁻¹)) =
          F32.val (min 1 (1 * SH_C0 + 2⁻¹)) := rfl
      have hmax : F32.fmax (F32.val 0) (F32.val (min 1 (1 * SH_C0 + 2⁻¹))) =
          F32.val (max 0 (min 1 (1 * SH_C0 + 2⁻¹))) := rfl
      rw [hmin, hmax, min_eq_right (by rw [SH_C0]; norm_num),
        max_eq_right (by rw [SH_C0]; positivity)]
      rw [SH_C0]
      norm_num
    simp [decodeColorDC, h1, hval]
  · rw [beq_eq_false_iff_ne]
    norm_num

/-- C5 amended: for every color-DC buffer, uint8 components are divided
by 255 with interpretation "u8"; otherwise "sh" forces SH, "linear"
forces linear, and "auto" yields "sh" exactly when some component lies
outside [0,1]; SH components are transformed v ↦ v × SH_C0 + 0.5 with
SH_C0 = 0.28209479177387814 (≈ 0.282095), linear components pass
through, and all outputs are clamped to [0,1] — raw component 1.0 under
auto-resolved SH yields 0.78209479177387814. -/
theorem C5_color_policy :
    (∀ (vs : List F32) (mode : ColorMode),
      decodeColorDC vs .u8 mode = (vs.map (fun v => clamp01 (F32.div v (F32.val 255))), "u8")) ∧
    (∀ (vs : List F32) (dt : DType), ¬ dt = .u8 → (decodeColorDC vs dt .sh).2 = "sh") ∧
    (∀ (vs : List F32) (dt : DType), ¬ dt = .u8 → (decodeColorDC vs dt .linear).2 = "linear") ∧
    (∀ (vs : List F32) (dt : DType), ¬ dt = .u8 →
      ((decodeColorDC vs dt .auto).2 = "sh" ↔ ∃ v ∈ vs, outsideUnit v = true)) ∧
    (∀ (vs : List F32) (dt : DType) (mode : ColorMode), (decodeColorDC vs dt mode).2 = "sh" →
      (decodeColorDC vs dt mode).1 =
        vs.map (fun v => clamp01 (F32.add (F32.mul v (F32.val SH_C0)) (F32.val (1/2))))) ∧
    (∀ (vs : List F32) (dt : DType) (mode : ColorMode), (decodeColorDC vs dt mode).2 = "linear" →
      (decodeColorDC vs dt mode).1 = vs.map clamp01) ∧
    (decodeColorDC [F32.val 1, F32.val 2] .f32 .auto).2 = "sh" ∧
    (decodeColorDC [F32.val 1, F32.val 2] .f32 .auto).1.getD 0 (F32.val 0) =
      F32.val 0.78209479177387814 := by
  refine ⟨fun vs mode => rfl, ?_, ?_, ?_, ?_, ?_, ?_, ?_⟩
  · intro vs dt h
    cases dt with
    | u8 => exact absurd rfl h
    | f16 => rfl
    | f32 => rfl
    | i32 => rfl
    | i64 => rfl
  · intro vs dt h
    cases dt with
    | u8 => exact absurd rfl h
    | f16 => rfl
    | f32 => rfl
    | i32 => rfl
    | i64 => rfl
  · intro vs dt h
    have key : ∀ dt2 : DType, ¬ dt2 = .u8 →
        ((decodeColorDC vs dt2 .auto).2 = "sh" ↔ ∃ v ∈ vs, outsideUnit v = true) := by
      intro dt2 h2
      cases ha : anyOutsideUnit vs with
      | true =>
        have htag : (decodeColorDC vs dt2 .auto).2 = "sh" := by
          cases dt2 with
          | u8 => exact absurd rfl h2
          | f16 => simp [decodeColorDC, ha]
          | f32 => simp [decodeColorDC, ha]
          | i32 => simp [decodeColorDC, ha]
          | i64 => simp [decodeColorDC, ha]
        rw [htag]
        simpa using List.any_eq_true.mp ha
      | false =>
        have htag : (decodeColorDC vs dt2 .auto).2 = "linear" := by
          cases dt2 with
          | u8 => exact absurd rfl h2
          | f16 => simp [decodeColorDC, ha]
          | f32 => simp [decodeColorDC, ha]
          | i32 => simp [decodeColorDC, ha]
          | i64 => simp [decodeColorDC, ha]
        rw [htag]
        constructor
        · intro hc
          exact absurd hc (by decide)
        · intro he
          have hany := List.any_eq_true.mpr (by simpa using he)
          rw [anyOutsideUnit] at ha
          rw [ha] at hany
          cases hany
    exact key dt h
  · intro vs dt mode h
    cases dt with
    | u8 => simp [decodeColorDC] at h
    | f16 =>
      cases mode with
      | sh => rfl
      | linear => simp [decodeColorDC] at h
      | auto =>
        cases ha : anyOutsideUnit vs with
        | true => simp [decodeColorDC, ha]
        | false => simp [decodeColorDC, ha] at h
    | f32 =>
      cases mode with
      | sh => rfl
      | linear => simp [decodeColorDC] at h
      | auto =>
        cases ha : anyOutsideUnit vs with
        | true => simp [decodeColorDC, ha]
        | false => simp [decodeColorDC, ha] at h
    | i32 =>
      cases mode with
      | sh => rfl
      | linear => simp [decodeColorDC] at h
      | auto =>
        cases ha : anyOutsideUnit vs with
        | true => simp [decodeColorDC, ha]
        | false => simp [decodeColorDC, ha] at h
    | i64 =>
      cases mode with
      | sh => rfl
      | linear => simp [decodeColorDC] at h
      | auto =>
        cases ha : anyOutsideUnit vs with
        | true => simp [decodeColorDC, ha]
        | false => simp [decodeColorDC, ha] at h
  · intro vs dt mode h
    cases dt with
    | u8 => simp [decodeColorDC] at h
    | f16 =>
      cases mode with
      | linear => rfl
      | sh => simp [decodeColorDC] at h
      | auto =>
        cases ha : anyOutsideUnit vs with
        | false => simp [decodeColorDC, ha]
        | true => simp [decodeColorDC, ha] at h
    | f32 =>
      cases mode with
      | linear => rfl
      | sh => simp [decodeColorDC] at h
      | auto =>
        cases ha : anyOutsideUnit vs with
        | false => simp [decodeColorDC, ha]
        | true => simp [decodeColorDC, ha] at h
    | i32 =>
      cases mode with
      | linear => rfl
      | sh => simp [decodeColorDC] at h
      | auto =>
        cases ha : anyOutsideUnit vs with
        | false => simp [decodeColorDC, ha]
        | true => simp [decodeColorDC, ha] at h
    | i64 =>
      cases mode with
      | linear => rfl
      | sh => simp [decodeColorDC] at h
      | auto =>
        cases ha : anyOutsideUnit vs with
        | false => simp [decodeColorDC, ha]
        | true => simp [decodeColorDC, ha] at h
  · have h1 : anyOutsideUnit [F32.val 1, F32.val 2] = true := by decide
    simp [decodeColorDC, h1]
  · have h1 : anyOutsideUnit [F32.val 1, F32.val 2] = true := by decide
    have hval : clamp01 (F32.add (F32.mul (F32.val 1) (F32.val SH_C0)) (F32.val (2⁻¹ : ℚ))) =
        F32.val 0.78209479177387814 := by
      have hmul : F32.mul (F32.val 1) (F32.val SH_C0) = F32.val (1 * SH_C0) := rfl
      have hadd : F32.add (F32.val (1 * SH_C0)) (F32.val (2⁻¹ : ℚ)) =
          F32.val (1 * SH_C0 + 2⁻¹) := rfl
      rw [hmul, hadd, clamp01]
      have hmin : F32.fmin (F32.val 1) (F32.val (1 * SH_C0 + 2⁻¹)) =
          F32.val (min 1 (1 * SH_C0 + 2⁻¹)) := rfl
      have hmax : F32.fmax (F32.val 0) (F32.val (min 1 (1 * SH_C0 + 2⁻¹))) =
          F32.val (max 0 (min 1 (1 * SH_C0 + 2⁻¹))) := rfl
      rw [hmin, hmax, min_eq_right (by rw [SH_C0]; norm_num),
        max_eq_right (by rw [SH_C0]; positivity)]
      rw [SH_C0]
      norm_num
    simp [decodeColorDC, h1, hval]

/-- Witness for C5 at a concrete non-uint8 buffer: mode "sh" forces the
SH interpretation tag. -/
theorem C5_color_policy_witness : (decodeColorDC [F32.val 1] .f32 .sh).2 = "sh" :=
  C5_color_policy.2.1 [F32.val 1] .f32 (by decide)


/-- A model for the C1 counterexample: the position tensor's data is
already a `Float32Array` and holds a NaN. -/
def mutModel : ParsedModel :=
  { tensors := [("positions",
      { data := .f32Arr [F32.nan, F32.val 1], shape := [1, 3, 3], dtype := .f32 })],
    paramsActiveShDegree := none, activeShDegree := none }

/-- The same model after a resolve call: the NaN was replaced in place by
its forward neighbour. -/
def mutModelAfter : ParsedModel :=
  { tensors := [("positions",
      { data := .f32Arr [F32.val 1, F32.val 1], shape := [1, 3, 3], dtype := .f32 })],
    paramsActiveShDegree := none, activeShDegree := none }

/-- Counterexample for C1 as stated: on a model whose position tensor
data is already a `Float32Array` containing a NaN, `toFloat32Array`
returns that very buffer, so sanitization mutates the input model — the
post-call model differs from the pre-call one. -/
theorem C1_resolver_no_mutation_cex :
    (resolveSemantics (fun _ => F32.val 1) mutModel {}).2 = mutModelAfter ∧
    (mutModelAfter == mutModel) = false := by
  constructor
  · decide
  · decide

/-- C1 amended: `resolveSemantics` leaves the parsed model unchanged
except when the position tensor's data is already a `Float32Array`: that
buffer is the one `toFloat32Array` returns, so sanitization rewrites it
in place.  Precisely: a model without a position tensor, or whose
position data is a non-`Float32Array` typed array, is returned
unchanged; when the position data is a `Float32Array`, the post-call
model is the input with that one record's buffer replaced by its
sanitized contents — in particular it is unchanged whenever every entry
was already finite (for models with unique tensor names, as the parser
produces). -/
theorem C1_resolver_mutation :
    (∀ (expF : F32 → F32) (m : ParsedModel) (o : ResolveOptions),
      findTensor m.tensors positionAliases = none → (resolveSemantics expF m o).2 = m) ∧
    (∀ (expF : F32 → F32) (m : ParsedModel) (o : ResolveOptions)
      (posT : TensorRecord) (vs : List F32),
      findTensor m.tensors positionAliases = some posT → posT.data = .otherArr vs →
      (resolveSemantics expF m o).2 = m) ∧
    (∀ (expF : F32 → F32) (m : ParsedModel) (o : ResolveOptions)
      (posT : TensorRecord) (vs : List F32) (key : String),
      findTensor m.tensors positionAliases = some posT →
      findTensorName m.tensors positionAliases = some key → posT.data = .f32Arr vs →
      (resolveSemantics expF m o).2 =
        { m with tensors :=
            setTensorData m.tensors key (.f32Arr (sanitizeFiniteInPlace vs).1) }) ∧
    (∀ (expF : F32 → F32) (m : ParsedModel) (o : ResolveOptions)
      (posT : TensorRecord) (vs : List F32),
      (m.tensors.map Prod.fst).Nodup →
      findTensor m.tensors positionAliases = some posT → posT.data = .f32Arr vs →
      (∀ v ∈ vs, v.isFinite = true) → (resolveSemantics expF m o).2 = m) := by
  refine ⟨?_, ?_, ?_, ?_⟩
  · intro expF m o hfind
    rw [resolve_missing expF m o hfind]
  · intro expF m o posT vs hfind hdata
    rw [resolve_post expF m o posT hfind, postModelOf, hdata]
  · intro expF m o posT vs key hfind hkey hdata
    rw [resolve_post expF m o posT hfind, postModelOf, hdata, hkey]
    simp [toFloat32Array, hdata]
  · intro expF m o posT vs hnd hfind hdata hfin
    obtain ⟨key, hkey⟩ := findTensorName_of_find m.tensors positionAliases posT hfind
    have hlk : lookupTensor m.tensors key = some posT := by
      rw [← findTensor_eq_lookup m.tensors positionAliases key hkey]
      exact hfind
    rw [resolve_post expF m o posT hfind, postModelOf, hdata, hkey]
    show { m with tensors := (setTensorData m.tensors key
      (.f32Arr (sanitizeFiniteInPlace (toFloat32Array (TensorData.f32Arr vs))).1)) } = m
    rw [show toFloat32Array (TensorData.f32Arr vs) = vs from rfl]
    rw [sanitize_all_finite vs hfin]
    show { m with tensors := setTensorData m.tensors key (.f32Arr vs) } = m
    rw [← hdata, setTensorData_id m.tensors key posT hnd hlk]

/-- Witness for C1 amended, unchanged branch: a model whose position data
is a non-`Float32Array` typed array containing a NaN comes back
untouched. -/
theorem C1_resolver_mutation_witness :
    (resolveSemantics (fun _ => F32.val 1)
      { tensors := [("positions",
          { data := .otherArr [F32.nan], shape := [1, 3, 3], dtype := .f32 })],
        paramsActiveShDegree := none, activeShDegree := none } {}).2 =
      { tensors := [("positions",
          { data := .otherArr [F32.nan], shape := [1, 3, 3], dtype := .f32 })],
        paramsActiveShDegree := none, activeShDegree := none } :=
  C1_resolver_mutation.2.1 (fun _ => F32.val 1) _ {}
    { data := .otherArr [F32.nan], shape := [1, 3, 3], dtype := .f32 } [F32.nan]
    (by decide) rfl


/-- C6: resolution fails with MissingPositionTensor naming the tried
aliases when no position alias is present; fails with UnsupportedShape
reporting the actual dimensions when the resolved position tensor's shape
has fewer than 3 dimensions, or dimension 1 ≠ 3, or dimension 2 ≠ 3;
otherwise on success the reported total vertex count equals N × 3 where
N is dimension 0. -/
theorem C6_position_shape_validation :
    (∀ (expF : F32 → F32) (m : ParsedModel) (o : ResolveOptions),
      findTensor m.tensors positionAliases = none →
      (resolveSemantics expF m o).1 = .error (.missingPositionTensor
        ["triangles_points", "triangle_points", "positions"])) ∧
    (∀ (expF : F32 → F32) (m : ParsedModel) (o : ResolveOptions) (posT : TensorRecord),
      findTensor m.tensors positionAliases = some posT → posT.shape.length < 3 →
      (resolveSemantics expF m o).1 = .error (.unsupportedShape posT.shape)) ∧
    (∀ (expF : F32 → F32) (m : ParsedModel) (o : ResolveOptions) (posT : TensorRecord),
      findTensor m.tensors positionAliases = some posT → ¬ posT.shape.length < 3 →
      (¬ posT.shape.getD 1 0 = 3 ∨ ¬ posT.shape.getD 2 0 = 3) →
      (resolveSemantics expF m o).1 = .error (.unsupportedShape
        [posT.shape.getD 0 0, posT.shape.getD 1 0, posT.shape.getD 2 0])) ∧
    (∀ (expF : F32 → F32) (m : ParsedModel) (o : ResolveOptions) (sd : SemanticData)
      (posT : TensorRecord), (resolveSemantics expF m o).1 = .ok sd →
      findTensor m.tensors positionAliases = some posT →
      sd.statsTotalVertices = posT.shape.getD 0 0 * 3) ∧
    (∀ (expF : F32 → F32) (m : ParsedModel) (o : ResolveOptions) (posT : TensorRecord),
      findTensor m.tensors positionAliases = some posT → ¬ posT.shape.length < 3 →
      posT.shape.getD 1 0 = 3 → posT.shape.getD 2 0 = 3 →
      (posT.shape.getD 0 0).den = 1 → 0 ≤ posT.shape.getD 0 0 →
      ∃ sd, (resolveSemantics expF m o).1 = .ok sd ∧
        sd.statsTotalVertices = posT.shape.getD 0 0 * 3) := by
  refine ⟨?_, ?_, ?_, ?_, ?_⟩
  · intro expF m o hfind
    rw [resolve_missing expF m o hfind]
    rfl
  · intro expF m o posT hfind hlen
    rw [resolve_shortShape expF m o posT hfind hlen]
  · intro expF m o posT hfind hlen hbad
    rw [resolve_badDims expF m o posT hfind hlen hbad]
  · intro expF m o sd posT hok hfind
    obtain ⟨posT2, hfind2, hsd⟩ := resolve_ok_inv expF m o sd hok
    have hpp : posT2 = posT := by
      rw [hfind] at hfind2
      exact (Option.some.inj hfind2).symm
    subst hpp
    rw [hsd]
    rfl
  · intro expF m o posT hfind hlen h1 h2 hden hnn
    refine ⟨resolveSuccess expF m o posT (sanitizeFiniteInPlace (toFloat32Array posT.data)),
      ?_, rfl⟩
    rw [resolve_success_eq expF m o posT hfind hlen h1 h2 hden hnn]

/-- Witness for C6 at the claim's examples: shape [10,3,3] is accepted
with total vertex count 10 × 3 = 30, and shape [10,4,3] is rejected with
UnsupportedShape reporting [10,4,3]. -/
theorem C6_position_shape_validation_witness :
    (∃ sd, (resolveSemantics (fun _ => F32.val 1)
      { tensors := [("positions",
          { data := .f32Arr [], shape := [10, 3, 3], dtype := .f32 })],
        paramsActiveShDegree := none, activeShDegree := none } {}).1 = .ok sd ∧
      sd.statsTotalVertices = (30 : ℚ)) ∧
    (resolveSemantics (fun _ => F32.val 1)
      { tensors := [("positions",
          { data := .f32Arr [], shape := [10, 4, 3], dtype := .f32 })],
        paramsActiveShDegree := none, activeShDegree := none } {}).1 =
      .error (.unsupportedShape [10, 4, 3]) := by
  constructor
  · obtain ⟨sd, hok, hcount⟩ := C6_position_shape_validation.2.2.2.2
      (fun _ => F32.val 1)
      { tensors := [("positions",
          { data := .f32Arr [], shape := [10, 3, 3], dtype := .f32 })],
        paramsActiveShDegree := none, activeShDegree := none } {}
      { data := .f32Arr [], shape := [10, 3, 3], dtype := .f32 }
      (by decide) (by decide) (by decide) (by decide) (by decide) (by decide)
    refine ⟨sd, hok, ?_⟩
    rw [hcount]
    norm_num
  · have h := C6_position_shape_validation.2.2.1
      (fun _ => F32.val 1)
      { tensors := [("positions",
          { data := .f32Arr [], shape := [10, 4, 3], dtype := .f32 })],
        paramsActiveShDegree := none, activeShDegree := none } {}
      { data := .f32Arr [], shape := [10, 4, 3], dtype := .f32 }
      (by decide) (by decide) (Or.inl (by decide))
    rw [h]
    norm_num


/-- C9: the container parser performs its structural checks in order,
failing with BufferTooSmall when the buffer is shorter than 32 bytes;
BadMagic when the magic differs from the expected dialect;
InvalidTOCLength when the TOC length is not a multiple of 32;
HeaderTOCOverflow when 32 + header length + TOC length exceeds the
buffer length; InvalidHeader when the header is undecodable or lacks the
tensors array; HeaderTensorCountMismatch when the definitions array is
shorter than TOC-length/32; and when none of these hold, per-entry
decoding proceeds (the result is the per-entry loop's, assembled). -/
theorem C9_structural_checks :
    (∀ (dec : Bytes → Option HeaderJson) (bytes : Bytes) (fmt : Format),
      bytes.length < 32 → parseContainer dec bytes fmt = .error (.bufferTooSmall bytes.length)) ∧
    (∀ (dec : Bytes → Option HeaderJson) (bytes : Bytes) (fmt : Format),
      ¬ bytes.length < 32 → ¬ bytes.take 4 = magicBytes fmt →
      parseContainer dec bytes fmt = .error (.badMagic fmt (bytes.take 4))) ∧
    (∀ (dec : Bytes → Option HeaderJson) (bytes : Bytes) (fmt : Format),
      ¬ bytes.length < 32 → bytes.take 4 = magicBytes fmt →
      ¬ readLE bytes 12 4 % 32 = 0 →
      parseContainer dec bytes fmt = .error (.invalidTOCLength (readLE bytes 12 4))) ∧
    (∀ (dec : Bytes → Option HeaderJson) (bytes : Bytes) (fmt : Format),
      ¬ bytes.length < 32 → bytes.take 4 = magicBytes fmt →
      readLE bytes 12 4 % 32 = 0 →
      32 + readLE bytes 8 4 + readLE bytes 12 4 > bytes.length →
      parseContainer dec bytes fmt = .error (.headerTOCOverflow
        (32 + readLE bytes 8 4 + readLE bytes 12 4) bytes.length)) ∧
    (∀ (dec : Bytes → Option HeaderJson) (bytes : Bytes) (fmt : Format),
      ¬ bytes.length < 32 → bytes.take 4 = magicBytes fmt →
      readLE bytes 12 4 % 32 = 0 →
      ¬ 32 + readLE bytes 8 4 + readLE bytes 12 4 > bytes.length →
      dec ((bytes.drop 32).take (readLE bytes 8 4)) = none →
      parseContainer dec bytes fmt = .error .invalidHeader) ∧
    (∀ (dec : Bytes → Option HeaderJson) (bytes : Bytes) (fmt : Format) (hdr : HeaderJson),
      ¬ bytes.length < 32 → bytes.take 4 = magicBytes fmt →
      readLE bytes 12 4 % 32 = 0 →
      ¬ 32 + readLE bytes 8 4 + readLE bytes 12 4 > bytes.length →
      dec ((bytes.drop 32).take (readLE bytes 8 4)) = some hdr → hdr.tensors = none →
      parseContainer dec bytes fmt = .error .invalidHeader) ∧
    (∀ (dec : Bytes → Option HeaderJson) (bytes : Bytes) (fmt : Format) (hdr : HeaderJson)
      (defs : List TensorDef),
      ¬ bytes.length < 32 → bytes.take 4 = magicBytes fmt →
      readLE bytes 12 4 % 32 = 0 →
      ¬ 32 + readLE bytes 8 4 + readLE bytes 12 4 > bytes.length →
      dec ((bytes.drop 32).take (readLE bytes 8 4)) = some hdr → hdr.tensors = some defs →
      defs.length < readLE bytes 12 4 / 32 →
      parseContainer dec bytes fmt = .error (.headerTensorCountMismatch defs.length
        (readLE bytes 12 4 / 32))) ∧
    (∀ (dec : Bytes → Option HeaderJson) (bytes : Bytes) (fmt : Format) (hdr : HeaderJson)
      (defs : List TensorDef),
      ¬ bytes.length < 32 → bytes.take 4 = magicBytes fmt →
      readLE bytes 12 4 % 32 = 0 →
      ¬ 32 + readLE bytes 8 4 + readLE bytes 12 4 > bytes.length →
      dec ((bytes.drop 32).take (readLE bytes 8 4)) = some hdr → hdr.tensors = some defs →
      ¬ defs.length < readLE bytes 12 4 / 32 →
      parseContainer dec bytes fmt =
        (parseEntriesGo bytes (32 + readLE bytes 8 4 + readLE bytes 12 4)
          (32 + readLE bytes 8 4) defs 0 (readLE bytes 12 4 / 32) []).map
          (mkParsedContainer fmt (readLE bytes 4 4) hdr (readLE bytes 12 4 / 32)
            (32 + readLE bytes 8 4 + readLE bytes 12 4))) := by
  refine ⟨?_, ?_, ?_, ?_, ?_, ?_, ?_, ?_⟩
  · intro dec bytes fmt h
    rw [parseContainer, if_pos h]
  · intro dec bytes fmt h1 h2
    rw [parseContainer, if_neg h1, if_pos h2]
  · intro dec bytes fmt h1 h2 h3
    rw [parseContainer, if_neg h1, if_neg (not_not_intro h2)]
    simp only [if_pos h3]
  · intro dec bytes fmt h1 h2 h3 h4
    rw [parseContainer, if_neg h1, if_neg (not_not_intro h2)]
    simp only [if_neg (not_not_intro h3), if_pos h4]
  · intro dec bytes fmt h1 h2 h3 h4 h5
    rw [parseContainer, if_neg h1, if_neg (not_not_intro h2)]
    simp only [if_neg (not_not_intro h3), if_neg h4, h5]
  · intro dec bytes fmt hdr h1 h2 h3 h4 h5 h6
    rw [parseContainer, if_neg h1, if_neg (not_not_intro h2)]
    simp only [if_neg (not_not_intro h3), if_neg h4, h5, h6]
  · intro dec bytes fmt hdr defs h1 h2 h3 h4 h5 h6 h7
    rw [parseContainer, if_neg h1, if_neg (not_not_intro h2)]
    simp only [if_neg (not_not_intro h3), if_neg h4, h5, h6, if_pos h7]
  · intro dec bytes fmt hdr defs h1 h2 h3 h4 h5 h6 h7
    rw [parseContainer, if_neg h1, if_neg (not_not_intro h2)]
    simp only [if_neg (not_not_intro h3), if_neg h4, h5, h6, if_neg h7]

/-- Witness for C9 at the empty buffer: too small. -/
theorem C9_structural_checks_witness :
    parseContainer (fun _ => none) [] .TGSP = .error (.bufferTooSmall ([] : Bytes).length) :=
  C9_structural_checks.1 (fun _ => none) [] .TGSP (by decide)


theorem shapeProductGo_err (shape : List ℚ) : ∀ (acc : ℚ) (e : ParseErr),
    shapeProductGo acc shape = .error e → isBadMagicErr e = false := by
  induction shape with
  | nil => intro acc e he; cases he
  | cons d tl ih =>
    intro acc e he
    rw [shapeProductGo] at he
    by_cases h : d.den = 1 ∧ 0 ≤ d
    · rw [if_pos h] at he
      exact ih _ _ he
    · rw [if_neg h] at he
      cases Except.error.inj he
      rfl

theorem shapeProduct_err (shape : List ℚ) (e : ParseErr)
    (he : shapeProduct shape = .error e) : isBadMagicErr e = false := by
  cases shape with
  | nil => cases he
  | cons d tl => exact shapeProductGo_err (d :: tl) 1 e he

theorem parseTocEntry_err (bytes : Bytes) (dataSectionStart tocBase : Nat)
    (defs : List TensorDef) (i : Nat) (e : ParseErr)
    (he : parseTocEntry bytes dataSectionStart tocBase defs i = .error e) :
    isBadMagicErr e = false := by
  rw [parseTocEntry] at he
  cases hdt : dtypeOfCode (readLE bytes (tocBase + 32 * i + 24) 4) with
  | none =>
    rw [hdt] at he
    cases Except.error.inj he
    rfl
  | some dt =>
    rw [hdt] at he
    dsimp only at he
    split at he
    · cases Except.error.inj he
      rfl
    · cases hp : shapeProduct ((defs.getD i { name := none, shape := none }).shape.getD []) with
      | error e2 =>
        rw [hp] at he
        cases Except.error.inj he
        exact shapeProduct_err _ _ hp
      | ok P =>
        rw [hp] at he
        dsimp only at he
        split at he
        · cases Except.error.inj he
          rfl
        · split at he
          · cases Except.error.inj he
            rfl
          · cases he

theorem parseEntriesGo_err (bytes : Bytes) (dataSectionStart tocBase : Nat)
    (defs : List TensorDef) : ∀ (fuel i : Nat) (acc : List (String × TensorRecord))
    (e : ParseErr),
    parseEntriesGo bytes dataSectionStart tocBase defs i fuel acc = .error e →
    isBadMagicErr e = false := by
  intro fuel
  induction fuel with
  | zero => intro i acc e he; cases he
  | succ n ih =>
    intro i acc e he
    rw [parseEntriesGo] at he
    cases hte : parseTocEntry bytes dataSectionStart tocBase defs i with
    | error e2 =>
      rw [hte] at he
      cases Except.error.inj he
      exact parseTocEntry_err bytes dataSectionStart tocBase defs i _ hte
    | ok p =>
      rw [hte] at he
      exact ih _ _ _ he

theorem parseContainer_magic_ok (dec : Bytes → Option HeaderJson) (bytes : Bytes)
    (fmt : Format) (hm : bytes.take 4 = magicBytes fmt) :
    isBadMagicResult (parseContainer dec bytes fmt) = false := by
  rw [parseContainer]
  by_cases h1 : bytes.length < 32
  · rw [if_pos h1]; rfl
  · rw [if_neg h1, if_neg (not_not_intro hm)]
    dsimp only
    split
    · rfl
    · split
      · rfl
      · cases hd : dec ((bytes.drop 32).take (readLE bytes 8 4)) with
        | none => rfl
        | some hdr =>
          dsimp only
          cases ht : hdr.tensors with
          | none => rfl
          | some defs =>
            dsimp only
            split
            · rfl
            · cases he : parseEntriesGo bytes (32 + readLE bytes 8 4 + readLE bytes 12 4)
                (32 + readLE bytes 8 4) defs 0 (readLE bytes 12 4 / 32) [] with
              | error e =>
                exact parseEntriesGo_err bytes _ _ defs _ 0 [] e he
              | ok ts => rfl

/-- C10: for every buffer, FormatLoader.parse never fails the parser's
magic check — the detected magic (including the TGSD alias, forwarded
verbatim through parseTSGD) is the parser's expected format, so the
BadMagic branch of parseContainer is unreachable through
FormatLoader.parse. -/
theorem C10_no_bad_magic (dec : Bytes → Option HeaderJson) (bytes : Bytes) :
    isBadMagicResult (formatLoaderParse dec bytes) = false := by
  rw [formatLoaderParse, detectFormat]
  by_cases h0 : bytes.length < 4
  · rw [if_pos h0]; rfl
  · rw [if_neg h0]
    by_cases h1 : bytes.take 4 = magicBytes .TGSP
    · rw [if_pos h1]
      exact parseContainer_magic_ok dec bytes .TGSP h1
    · rw [if_neg h1]
      by_cases h2 : bytes.take 4 = magicBytes .TSGD
      · rw [if_pos h2]
        exact parseContainer_magic_ok dec bytes .TSGD h2
      · rw [if_neg h2]
        by_cases h3 : bytes.take 4 = magicBytes .TGSD
        · rw [if_pos h3]
          exact parseContainer_magic_ok dec bytes .TGSD h3
        · rw [if_neg h3]
          rfl


def zeroDimHeaderDecode : Bytes → Option HeaderJson := fun _ =>
  some { tensors := some [{ name := some "t", shape := some [0] }],
         paramsActiveShDegree := none, activeShDegree := none }

def zeroDimBuffer : Bytes :=
  [84, 71, 83, 80,  1, 0, 0, 0,  0, 0, 0, 0,  32, 0, 0, 0,
   0, 0, 0, 0,  0, 0, 0, 0,  0, 0, 0, 0,  0, 0, 0, 0,
   0, 0, 0, 0, 0, 0, 0, 0,  0, 0, 0, 0, 0, 0, 0, 0,
   4, 0, 0, 0, 0, 0, 0, 0,  2, 0, 0, 0,  0, 0, 0, 0,
   0, 0, 0, 0]

/-- Counterexample for C2 as stated: a container whose single tensor has
the non-empty shape [0] and a declared byte length of 4 parses
successfully — the size check is skipped although the shape-derived size
0 × 4 differs from the declared 4, where the claim demands a
SizeMismatch failure. -/
theorem C2_zero_dim_bypass_cex :
    (parseContainer zeroDimHeaderDecode zeroDimBuffer .TGSP).isOk = true ∧
    (decide ((0 : ℚ) * 4 = (4 : ℚ))) = false := by
  constructor
  · norm_num [parseContainer, zeroDimHeaderDecode, zeroDimBuffer, readLE, magicBytes,
      parseEntriesGo, parseTocEntry, dtypeOfCode, dtypeBytes, shapeProduct, shapeProductGo,
      upsertTensor, readTypedTensor, bitsToF32, mkParsedContainer, Except.map, Except.isOk,
      Except.toBool]
  · exact decide_eq_false (by norm_num)

/-- C2 amended: for a TOC entry with a known dtype and in-bounds byte
range whose shape yields element product P, the parser fails with
SizeMismatch (naming the tensor and both values) if and only if P is
positive and P times the dtype's byte width differs from the declared
byte length — a non-empty shape containing a zero dimension bypasses the
check regardless of the declared length. -/
theorem C2_size_mismatch_check (bytes : Bytes) (dataSectionStart tocBase : Nat) (defs : List TensorDef)
    (i : Nat) (dt : DType) (P : ℚ)
    (hdt : dtypeOfCode (readLE bytes (tocBase + 32 * i + 24) 4) = some dt)
    (hbounds : ¬ dataSectionStart + readLE bytes (tocBase + 32 * i + 8) 8 +
      readLE bytes (tocBase + 32 * i + 16) 8 > bytes.length)
    (hprod : shapeProduct ((defs.getD i { name := none, shape := none }).shape.getD []) =
      .ok P) :
    (parseTocEntry bytes dataSectionStart tocBase defs i =
      .error (.sizeMismatch
        ((defs.getD i { name := none, shape := none }).name.getD ("tensor_" ++ toString i))
        (P * (dtypeBytes dt : ℚ)) (readLE bytes (tocBase + 32 * i + 16) 8))) ↔
    (0 < P ∧ P * (dtypeBytes dt : ℚ) ≠ ((readLE bytes (tocBase + 32 * i + 16) 8 : Nat) : ℚ)) := by
  rw [parseTocEntry]
  rw [hdt]
  dsimp only
  rw [if_neg hbounds, hprod]
  dsimp only
  constructor
  · intro h
    by_cases hc : 0 < P ∧ P * (dtypeBytes dt : ℚ) ≠ (readLE bytes (tocBase + 32 * i + 16) 8 : ℚ)
    · exact hc
    · rw [if_neg hc] at h
      split at h
      · cases Except.error.inj h
      · cases h
  · intro hc
    rw [if_pos hc]

/-- Definitions array for the C2 witness: one tensor of shape [2]. -/
def mismatchDefs : List TensorDef := [{ name := some "t", shape := some [2] }]

/-- A 36-byte range holding one TOC entry (relative offset 0, byte
length 4, dtype code 2 = f32) followed by 4 data bytes: shape [2] × 4
bytes per f32 = 8 ≠ 4, so the size check fires. -/
def mismatchBuffer : Bytes :=
  [0, 0, 0, 0, 0, 0, 0, 0,  0, 0, 0, 0, 0, 0, 0, 0,
   4, 0, 0, 0, 0, 0, 0, 0,  2, 0, 0, 0,  0, 0, 0, 0,
   0, 0, 0, 0]

/-- Witness for C2 amended at a concrete mismatching entry. -/
theorem C2_size_mismatch_check_witness :
    (parseTocEntry mismatchBuffer 32 0 mismatchDefs 0 =
      .error (.sizeMismatch
        ((mismatchDefs.getD 0 { name := none, shape := none }).name.getD
          ("tensor_" ++ toString 0))
        ((2 : ℚ) * (dtypeBytes .f32 : ℚ)) (readLE mismatchBuffer (0 + 32 * 0 + 16) 8))) ↔
    (0 < (2 : ℚ) ∧ (2 : ℚ) * (dtypeBytes .f32 : ℚ) ≠
      ((readLE mismatchBuffer (0 + 32 * 0 + 16) 8 : Nat) : ℚ)) :=
  C2_size_mismatch_check mismatchBuffer 32 0 mismatchDefs 0 .f32 2 (by decide) (by decide)
    (by norm_num [shapeProduct, shapeProductGo, mismatchDefs])

end TSL
